import Mathlib

/-!
Verification development for the distributed Betweenness Centrality
application (exp/apps/compiler_outputs/bc/gen.cpp).

The embedding models a single-host run (every node is local and owned, so
every reduce/broadcast sync call is the identity on the node state; the
distributed accumulator reduce returns the local value).  The `do_all`
data-parallel loops are modelled as sequential folds over the local node
ids, which is one legitimate schedule of the thread pool.

Machine integers: every `uint32_t` field is a `Nat` and every C++ add on a
`uint32_t` is taken modulo 2^32 (`add32`).  `float` fields
(`to_add_float`, `dependency`, `betweeness_centrality`) are modelled by
exact rationals; the concrete graphs evaluated below only ever produce
small integer ratios (1/1, 1/2, ...) and sums of small integers, all of
which 32-bit IEEE floats represent and compute exactly, so the rational
model agrees with the C++ float arithmetic on every evaluated input.

`assert` statements in the Changes functors are modelled as aborting the
run: the corresponding node functions return `none` when an assertion
fails, and the surrounding round loop propagates the failure
(`RunRes.assertFail`).
-/

set_option allowUnsafeReducibility true

attribute [semireducible] Rat.mul Rat.add Rat.sub Rat.inv Rat.div

/-- Node state, mirroring struct NodeData of gen.cpp (field names kept,
including the source's spelling of `propogation_flag` and
`betweeness_centrality`). -/
structure NodeData where
  current_length : Nat
  old_length : Nat
  num_shortest_paths : Nat
  num_successors : Nat
  num_predecessors : Nat
  trim : Nat
  to_add : Nat
  to_add_float : Rat
  dependency : Rat
  betweeness_centrality : Rat
  propogation_flag : Bool
deriving DecidableEq

/-- Per-host state: node data indexed by local node id.  On one host the
local id, the global id and the node coincide. -/
def St : Type := Nat → NodeData

/-- A directed graph: `n` nodes `0..n-1`, `adj u` the list of destinations
of the outgoing edges of `u` (duplicates allowed, order as stored). -/
structure Graph where
  n : Nat
  adj : Nat → List Nat

/-- 32-bit wrap-around addition (`uint32_t` + in the C++ source). -/
def add32 (a b : Nat) : Nat := (a + b) % 4294967296

/-- The unvisited sentinel: std::numeric_limits of uint32_t max / 4
(gen.cpp:172). -/
def infinity : Nat := (4294967296 - 1) / 4

/-- Overwrite the data of node `v`. -/
def updNode (σ : St) (v : Nat) (d : NodeData) : St :=
  fun w => if w = v then d else σ w

/-- Sequential schedule of a Galois::do_all over all local nodes. -/
def doAll (g : Graph) (f : St → Nat → St) (σ : St) : St :=
  (List.range g.n).foldl f σ

/-- do_all carrying the distributed accumulator (modelled exactly as a
natural number; the loops below only compare it with zero). -/
def doAllAcc (g : Graph) (f : St × Nat → Nat → St × Nat) (x : St × Nat) : St × Nat :=
  (List.range g.n).foldl f x

/-- do_all whose operator can abort the run (a failed assert). -/
def doAllOpt (g : Graph) (f : St → Nat → Option St) (σ : St) : Option St :=
  (List.range g.n).foldl (fun acc u => acc.bind (fun τ => f τ u)) (some σ)

/-- InitializeGraph::operator() (gen.cpp:283-296): zero every
betweenness-centrality related field. -/
def initializeGraphNode (d : NodeData) : NodeData :=
  { d with
    betweeness_centrality := 0
    num_shortest_paths := 0
    num_successors := 0
    num_predecessors := 0
    trim := 0
    to_add := 0
    to_add_float := 0
    dependency := 0
    propogation_flag := false }

/-- InitializeGraph::go on one host (the trailing syncs are identities). -/
def initializeGraph (g : Graph) (σ : St) : St :=
  doAll g (fun σ u => updNode σ u (initializeGraphNode (σ u))) σ

/-- An arbitrary pre-initialization state (the C++ node data is
default-constructed before InitializeGraph runs; no field is read before
being written by the initializers). -/
def zeroNode : NodeData :=
  { current_length := 0, old_length := 0, num_shortest_paths := 0,
    num_successors := 0, num_predecessors := 0, trim := 0, to_add := 0,
    to_add_float := 0, dependency := 0, betweeness_centrality := 0,
    propogation_flag := false }

/-- The all-default host state fed to InitializeGraph. -/
def baseState : St := fun _ => zeroNode

/-- InitializeIteration::operator() (gen.cpp:347-369): reset the
per-source-iteration fields; the source is seeded with distance 0, one
shortest path and a raised propagation flag. -/
def initializeIterationNode (s u : Nat) (d : NodeData) : NodeData :=
  if u = s then
    { d with current_length := 0, old_length := 0,
             num_shortest_paths := 1, propogation_flag := true }
  else
    { d with current_length := infinity, old_length := infinity }

/-- InitializeIteration::go on one host for source `s`. -/
def initializeIteration (g : Graph) (s : Nat) (σ : St) : St :=
  doAll g (fun σ u => updNode σ u (initializeIterationNode s u (σ u))) σ

/-- FirstIterationSSSP::operator() (gen.cpp:460-497): relax every outgoing
edge of the source with candidate distance 1 + current_length (uint32
add), applied as an atomic minimum at the destination. -/
def firstIterationSSSPNode (g : Graph) (u : Nat) (σ : St) : St :=
  (g.adj u).foldl
    (fun σ dst =>
      let nd := add32 1 ((σ u).current_length)
      updNode σ dst { σ dst with current_length := min ((σ dst).current_length) nd })
    σ

/-- FirstIterationSSSP::go (gen.cpp:378-457): only the host owning the
source processes it; on one host that is node `s` itself when it exists. -/
def firstIterationSSSP (g : Graph) (s : Nat) (σ : St) : St :=
  if s < g.n then firstIterationSSSPNode g s σ else σ

/-- The body of the SSSP edge loop (gen.cpp:617-641): compute the
candidate 1 + current_length (uint32 add), apply the atomic minimum at
the destination, and count the strict improvement. -/
def ssspEdgeRelax (g : Graph) (u : Nat) (y : St × Nat) (dst : Nat) : St × Nat :=
  let σ := y.1
  let nd := add32 1 ((σ u).current_length)
  let oldv := (σ dst).current_length
  let σ1 := updNode σ dst { σ dst with current_length := min oldv nd }
  if oldv > nd then (σ1, y.2 + 1) else (σ1, y.2)

/-- SSSP::operator() (gen.cpp:611-643): a node whose distance improved
since the last round (old_length > current_length) caches the new value in
old_length and relaxes its outgoing edges; each strict improvement at a
destination bumps the accumulator. -/
def ssspNode (g : Graph) (x : St × Nat) (u : Nat) : St × Nat :=
  if (x.1 u).old_length > (x.1 u).current_length then
    (g.adj u).foldl (ssspEdgeRelax g u)
      (updNode x.1 u { x.1 u with old_length := (x.1 u).current_length }, x.2)
  else x

/-- One round of the SSSP do_all with a freshly reset accumulator. -/
def ssspRound (g : Graph) (σ : St) : St × Nat :=
  doAllAcc g (ssspNode g) (σ, 0)

/-- The SSSP round loop (gen.cpp:514-591): rounds repeat while the reduced
accumulator is non-zero.  `none` models fuel exhaustion only; the real
loop has no iteration bound. -/
def ssspLoop (g : Graph) : Nat → St → Option St
  | 0, σ =>
      let r := ssspRound g σ
      if r.2 = 0 then some r.1 else none
  | fuel + 1, σ =>
      let r := ssspRound g σ
      if r.2 = 0 then some r.1 else ssspLoop g fuel r.1

/-- SSSP::go (gen.cpp:506-608): the first-iteration relaxation followed by
the round loop. -/
def ssspGo (g : Graph) (fuel s : Nat) (σ : St) : Option St :=
  ssspLoop g fuel (firstIterationSSSP g s σ)

/-- The body of the PredAndSucc edge loop (gen.cpp:747-766): on a
shortest-path edge (distance(u) + 1 == distance(dst), uint32 add)
increment the source's successor count and the destination's predecessor
count. -/
def predAndSuccEdge (g : Graph) (u : Nat) (σ : St) (dst : Nat) : St :=
  if add32 ((σ u).current_length) 1 = (σ dst).current_length then
    let σ1 := updNode σ u
      { σ u with num_successors := add32 ((σ u).num_successors) 1 }
    updNode σ1 dst
      { σ1 dst with num_predecessors := add32 ((σ1 dst).num_predecessors) 1 }
  else σ

/-- PredAndSucc::operator() (gen.cpp:743-769): a node with a finite
distance classifies each outgoing edge. -/
def predAndSuccNode (g : Graph) (σ : St) (u : Nat) : St :=
  if (σ u).current_length ≠ infinity then
    (g.adj u).foldl (predAndSuccEdge g u) σ
  else σ

/-- PredAndSucc::go on one host (the two trailing syncs are identities). -/
def predAndSucc (g : Graph) (σ : St) : St :=
  doAll g (predAndSuccNode g) σ

/-- The body of the NumShortestPaths edge loop (gen.cpp:1014-1040): on a
shortest-path edge, add the pusher's num_shortest_paths to the
destination's to_add, bump the destination's trim and the accumulator. -/
def nspPushEdge (g : Graph) (u : Nat) (y : St × Nat) (dst : Nat) : St × Nat :=
  let σ := y.1
  let paths := (σ u).num_shortest_paths
  if add32 ((σ u).current_length) 1 = (σ dst).current_length then
    let σ1 := updNode σ dst { σ dst with to_add := add32 ((σ dst).to_add) paths }
    let σ2 := updNode σ1 dst { σ1 dst with trim := add32 ((σ1 dst).trim) 1 }
    (σ2, y.2 + 1)
  else (σ, y.2)

/-- NumShortestPaths::operator() (gen.cpp:1009-1046): a reachable node
with its propagation flag raised and a positive successor count pushes its
shortest-path count to every DAG-successor (as a to_add delta plus a trim
increment, bumping the accumulator per pushed edge) and then lowers its
own flag. -/
def numShortestPathsNode (g : Graph) (x : St × Nat) (u : Nat) : St × Nat :=
  if (x.1 u).current_length ≠ infinity ∧ (x.1 u).propogation_flag = true ∧
      (x.1 u).num_successors > 0 then
    let y := (g.adj u).foldl (nspPushEdge g u) x
    (updNode y.1 u { y.1 u with propogation_flag := false }, y.2)
  else x

/-- NumShortestPathsChanges::operator() (gen.cpp:811-850): apply the
pending trim to the predecessor count (asserting trim ≤ num_predecessors
and, on reaching zero predecessors, that the flag was not already up) and
the pending to_add to the shortest-path count.  A failed assert aborts the
run (`none`). -/
def numShortestPathsChangesNode (d : NodeData) : Option NodeData :=
  let step1 : Option NodeData :=
    if d.trim > 0 then
      if d.trim ≤ d.num_predecessors then
        let d1 := { d with num_predecessors := d.num_predecessors - d.trim, trim := 0 }
        if d1.num_predecessors = 0 then
          if d1.propogation_flag then none
          else some { d1 with propogation_flag := true }
        else some d1
      else none
    else some d
  step1.map fun d1 =>
    if d1.to_add > 0 then
      { d1 with num_shortest_paths := add32 (d1.num_shortest_paths) (d1.to_add),
                to_add := 0 }
    else d1

/-- NumShortestPathsChanges::go on one host. -/
def numShortestPathsChanges (g : Graph) (σ : St) : Option St :=
  doAllOpt g (fun σ u => (numShortestPathsChangesNode (σ u)).map (updNode σ u)) σ

/-- The push do_all of one NumShortestPaths round with a freshly reset
accumulator. -/
def numShortestPathsPushPass (g : Graph) (σ : St) : St × Nat :=
  doAllAcc g (numShortestPathsNode g) (σ, 0)

/-- One round of NumShortestPaths::go: the push do_all, the (identity)
trim/to_add syncs, then the Changes pass. -/
def numShortestPathsRound (g : Graph) (σ : St) : Option (St × Nat) :=
  let y := numShortestPathsPushPass g σ
  (numShortestPathsChanges g y.1).map (fun τ => (τ, y.2))

/-- Result of a round loop whose Changes pass can abort. -/
inductive RunRes where
  | ok (σ : St)
  | fuelOut (σ : St)
  | assertFail

/-- Project a successfully terminated loop. -/
def RunRes.toOption : RunRes → Option St
  | .ok σ => some σ
  | .fuelOut _ => none
  | .assertFail => none

/-- The NumShortestPaths round loop (gen.cpp:867-973); terminates when a
round pushes nothing (accumulator zero), after which the trailing
num_shortest_paths / propogation_flag syncs are identities on one host. -/
def numShortestPathsLoop (g : Graph) : Nat → St → RunRes
  | 0, σ =>
      match numShortestPathsRound g σ with
      | none => .assertFail
      | some (σ1, acc) => if acc = 0 then .ok σ1 else .fuelOut σ1
  | fuel + 1, σ =>
      match numShortestPathsRound g σ with
      | none => .assertFail
      | some (σ1, acc) => if acc = 0 then .ok σ1 else numShortestPathsLoop g fuel σ1

/-- The body of the DependencyPropogation edge loop (gen.cpp:1335-1367):
for every DAG-successor whose flag is up (finalized dependency) the
scanning node increments its own trim and adds
(paths(u)/paths(dst)) * (1 + dependency(dst)) into its own to_add_float. -/
def depScanEdge (g : Graph) (u : Nat) (y : St × Nat) (dst : Nat) : St × Nat :=
  let σ := y.1
  if (σ dst).propogation_flag = true then
    if add32 ((σ u).current_length) 1 = (σ dst).current_length then
      let σ1 := updNode σ u { σ u with trim := add32 ((σ u).trim) 1 }
      let σ2 := updNode σ1 u
        { σ1 u with to_add_float := (σ1 u).to_add_float +
            (((σ1 u).num_shortest_paths : Rat) /
              ((σ1 dst).num_shortest_paths : Rat)) *
              (1 + (σ1 dst).dependency) }
      (σ2, y.2 + 1)
    else (σ, y.2)
  else (σ, y.2)

/-- DependencyPropogation::operator(), outer structure (gen.cpp:1326-1374):
a reachable non-source node with successors left scans its outgoing
edges; the source of the iteration instead has its successor count
force-reset to zero. -/
def dependencyPropogationNode (g : Graph) (s : Nat) (x : St × Nat) (u : Nat) :
    St × Nat :=
  if (x.1 u).current_length ≠ infinity then
    if (x.1 u).num_successors > 0 then
      if u ≠ s then (g.adj u).foldl (depScanEdge g u) x
      else (updNode x.1 u { x.1 u with num_successors := 0 }, x.2)
    else x
  else x

/-- DependencyPropChanges::operator() (gen.cpp:1091-1126): on reachable
nodes, fold to_add_float into dependency; a node with no successors and a
raised flag has been fully consumed (assert trim == 0, lower the flag,
zero its path count); otherwise apply the pending trim to the successor
count (asserting trim ≤ num_successors and, on reaching zero, that the
flag was down before raising it). -/
def dependencyPropChangesNode (d : NodeData) : Option NodeData :=
  if d.current_length ≠ infinity then
    let d0 := if d.to_add_float > 0 then
        { d with dependency := d.dependency + d.to_add_float, to_add_float := 0 }
      else d
    if d0.num_successors = 0 ∧ d0.propogation_flag = true then
      if d0.trim = 0 then
        some { d0 with propogation_flag := false, num_shortest_paths := 0 }
      else none
    else if d0.trim > 0 then
      if d0.trim ≤ d0.num_successors then
        let d1 := { d0 with num_successors := d0.num_successors - d0.trim, trim := 0 }
        if d1.num_successors = 0 then
          if d1.propogation_flag then none
          else some { d1 with propogation_flag := true }
        else some d1
      else none
    else some d0
  else some d

/-- DependencyPropChanges::go on one host. -/
def dependencyPropChanges (g : Graph) (σ : St) : Option St :=
  doAllOpt g (fun σ u => (dependencyPropChangesNode (σ u)).map (updNode σ u)) σ

/-- The scan do_all of one DependencyPropogation round with a freshly
reset accumulator. -/
def dependencyPropogationScanPass (g : Graph) (s : Nat) (σ : St) : St × Nat :=
  doAllAcc g (dependencyPropogationNode g s) (σ, 0)

/-- One round of DependencyPropogation::go: the scan do_all, the
(identity) trim/to_add_float syncs, then the Changes pass. -/
def dependencyPropogationRound (g : Graph) (s : Nat) (σ : St) :
    Option (St × Nat) :=
  let y := dependencyPropogationScanPass g s σ
  (dependencyPropChanges g y.1).map (fun τ => (τ, y.2))

/-- The DependencyPropogation round loop (gen.cpp:1145-1316). -/
def dependencyPropogationLoop (g : Graph) (s : Nat) : Nat → St → RunRes
  | 0, σ =>
      match dependencyPropogationRound g s σ with
      | none => .assertFail
      | some (σ1, acc) => if acc = 0 then .ok σ1 else .fuelOut σ1
  | fuel + 1, σ =>
      match dependencyPropogationRound g s σ with
      | none => .assertFail
      | some (σ1, acc) =>
          if acc = 0 then .ok σ1 else dependencyPropogationLoop g s fuel σ1

/-- BC::operator() (gen.cpp:1457-1463): fold the finalized dependency into
the betweenness centrality and reset it. -/
def bcNode (d : NodeData) : NodeData :=
  { d with betweeness_centrality := d.betweeness_centrality + d.dependency,
           dependency := 0 }

/-- The per-iteration BC accumulation do_all. -/
def bcPass (g : Graph) (σ : St) : St :=
  doAll g (fun σ u => updNode σ u (bcNode (σ u))) σ

/-- Phases 4.2-4.4 of one source iteration: InitializeIteration, the BFS,
the DAG counter and the shortest-path-count round loop (the state right
after phase 4.4 terminates). -/
def runThroughNsp (fuel : Nat) (g : Graph) (s : Nat) (σ : St) : Option St :=
  (ssspGo g fuel s (initializeIteration g s σ)).bind fun σ1 =>
    (numShortestPathsLoop g fuel (predAndSucc g σ1)).toOption

/-- Phases 4.2-4.5 of one source iteration (the state right after the
dependency-propagation round loop terminates). -/
def runThroughDep (fuel : Nat) (g : Graph) (s : Nat) (σ : St) : Option St :=
  (runThroughNsp fuel g s σ).bind fun σ1 =>
    (dependencyPropogationLoop g s fuel σ1).toOption

/-- One full source iteration of BC::go (gen.cpp:1403-1452). -/
def runSource (fuel : Nat) (g : Graph) (s : Nat) (σ : St) : Option St :=
  (runThroughDep fuel g s σ).map (bcPass g)

/-- Multiplicity of the DAG edge u → v in state σ: the number of
occurrences of v among u's edge destinations when distance(u) + 1 (uint32
add) equals distance(v), as tested by PredAndSucc, NumShortestPaths and
DependencyPropogation. -/
def dagMult (g : Graph) (σ : St) (u v : Nat) : Nat :=
  if add32 ((σ u).current_length) 1 = (σ v).current_length then (g.adj u).count v
  else 0

/-- Total DAG in-degree of v (with edge multiplicity). -/
def dagInDeg (g : Graph) (σ : St) (v : Nat) : Nat :=
  ∑ u ∈ Finset.range g.n, dagMult g σ u v

/-- DAG in-degree of v restricted to predecessors drawn from S. -/
def dagFromSet (g : Graph) (σ : St) (S : Finset Nat) (v : Nat) : Nat :=
  ∑ u ∈ S, dagMult g σ u v

/-- DAG out-degree of u (with edge multiplicity), as the number of
outgoing edges passing the shortest-path test. -/
def dagOutDeg (g : Graph) (σ : St) (u : Nat) : Nat :=
  ((g.adj u).filter
    (fun v => decide (add32 ((σ u).current_length) 1 = (σ v).current_length))).length

/-- DAG out-degree of u restricted to successors drawn from S. -/
def dagToSet (g : Graph) (σ : St) (S : Finset Nat) (u : Nat) : Nat :=
  ∑ v ∈ S, dagMult g σ u v

/-- The gate of NumShortestPaths::operator(): finite distance, raised
flag, positive successor count. -/
def nspGate (σ : St) (u : Nat) : Prop :=
  (σ u).current_length ≠ infinity ∧ (σ u).propogation_flag = true ∧
    (σ u).num_successors > 0

instance (σ : St) (u : Nat) : Decidable (nspGate σ u) := by
  unfold nspGate
  infer_instance

/-- The gate under which DependencyPropogation::operator() scans a node's
edges: finite distance, successors left, and not the current source. -/
def depGate (s : Nat) (σ : St) (u : Nat) : Prop :=
  (σ u).current_length ≠ infinity ∧ (σ u).num_successors > 0 ∧ u ≠ s

instance (s : Nat) (σ : St) (u : Nat) : Decidable (depGate s σ u) := by
  unfold depGate
  infer_instance

/-- The gate under which DependencyPropogation::operator() force-resets
the successor count of the current source. -/
def depSrcGate (s : Nat) (σ : St) (u : Nat) : Prop :=
  (σ u).current_length ≠ infinity ∧ (σ u).num_successors > 0 ∧ u = s

instance (s : Nat) (σ : St) (u : Nat) : Decidable (depSrcGate s σ u) := by
  unfold depSrcGate
  infer_instance

/-- The nodes a NumShortestPaths push round processes: finite distance,
raised flag and positive successor count (the gate of
NumShortestPaths::operator()). -/
def nspPushSet (g : Graph) (σ : St) : Finset Nat :=
  (Finset.range g.n).filter (nspGate σ)

/-- The node set named by the spec for a push round: raised flag and
positive successor count (without the finite-distance test the code also
performs). -/
def nspClaimSet (g : Graph) (σ : St) : Finset Nat :=
  (Finset.range g.n).filter
    (fun u => (σ u).propogation_flag = true ∧ (σ u).num_successors > 0)

/-- The total to_add contribution node v receives in one push round:
every pushing DAG-predecessor contributes its num_shortest_paths once per
parallel DAG edge into v. -/
def nspPushAmt (g : Graph) (σ : St) (v : Nat) : Nat :=
  ∑ u ∈ nspPushSet g σ, dagMult g σ u v * (σ u).num_shortest_paths

/-- The nodes whose flag a DependencyPropogation scan round consumes. -/
def depFlagSet (g : Graph) (σ : St) : Finset Nat :=
  (Finset.range g.n).filter (fun v => (σ v).propogation_flag = true)

/-- The number of flag-raised DAG successors (with multiplicity) node u
counts in one DependencyPropogation scan round: its trim increment. -/
def depScanCount (g : Graph) (σ : St) (u : Nat) : Nat :=
  ((g.adj u).filter
    (fun v => decide ((σ v).propogation_flag = true ∧
      add32 ((σ u).current_length) 1 = (σ v).current_length))).length

/-- The state after k rounds of the NumShortestPaths loop body (`none`
once a Changes assert has failed). -/
def nspStateAt (g : Graph) (σ : St) : Nat → Option St
  | 0 => some σ
  | k + 1 =>
      (nspStateAt g σ k).bind fun τ => (numShortestPathsRound g τ).map Prod.fst

/-- The set of nodes that have completed their push during the first k
NumShortestPaths rounds (the union of the gated sets of those rounds). -/
def nspCumSet (g : Graph) (σ : St) : Nat → Finset Nat
  | 0 => ∅
  | k + 1 =>
      nspCumSet g σ k ∪
        (match nspStateAt g σ k with
          | some τ => nspPushSet g τ
          | none => ∅)

/-- Number of entries of an edge-destination list E of node u with a
raised flag passing the shortest-path test (the edge-list analogue of
depScanCount). -/
def depListCnt (σ : St) (u : Nat) (E : List Nat) : Nat :=
  (E.filter (fun v => decide ((σ v).propogation_flag = true ∧
    add32 ((σ u).current_length) 1 = (σ v).current_length))).length

/-- The total to_add_float increment node u accumulates while scanning an
edge-destination list E in one DependencyPropogation round. -/
def depListTaf (σ : St) (u : Nat) (E : List Nat) : Rat :=
  ((E.filter (fun v => decide ((σ v).propogation_flag = true ∧
    add32 ((σ u).current_length) 1 = (σ v).current_length))).map
    (fun v => (((σ u).num_shortest_paths : Rat) /
        ((σ v).num_shortest_paths : Rat)) * (1 + (σ v).dependency))).sum

/-- The to_add_float increment of node u in one DependencyPropogation
scan round. -/
def depScanAmt (g : Graph) (σ : St) (u : Nat) : Rat :=
  depListTaf σ u (g.adj u)

/-- Side conditions on the distances and the graph under which the
phase-4.4 / 4.5 protocols are analysed: every distance is at most the
sentinel and, when finite, small enough that the +1 candidate stays below
the sentinel (true of any BFS distance on a graph with fewer than
infinity - 1 nodes); edge destinations are local nodes; DAG degrees fit in
32 bits. -/
def LenOK (g : Graph) (σ : St) : Prop :=
  (∀ v, v < g.n → (σ v).current_length ≤ infinity ∧
    ((σ v).current_length ≠ infinity → (σ v).current_length + 1 < infinity)) ∧
  (∀ u, u < g.n → ∀ v ∈ g.adj u, v < g.n) ∧
  (∀ v, v < g.n → dagInDeg g σ v < 4294967296) ∧
  (∀ v, v < g.n → dagOutDeg g σ v < 4294967296)

instance (g : Graph) (σ : St) : Decidable (LenOK g σ) := by
  unfold LenOK
  infer_instance

/-- The state in which phase 4.4 starts: trim and to_add consumed,
num_predecessors as computed by PredAndSucc (the DAG in-degree), and a
raised flag only on nodes with no remaining predecessors and a finite
distance (InitializeIteration raises it on the source only). -/
def NspEntry (g : Graph) (σ : St) : Prop :=
  LenOK g σ ∧
  (∀ v, v < g.n → (σ v).trim = 0 ∧ (σ v).to_add = 0) ∧
  (∀ v, v < g.n → (σ v).num_predecessors = dagInDeg g σ v) ∧
  (∀ v, v < g.n → (σ v).propogation_flag = true →
    (σ v).num_predecessors = 0 ∧ (σ v).current_length ≠ infinity)

instance (g : Graph) (σ : St) : Decidable (NspEntry g σ) := by
  unfold NspEntry
  infer_instance

/-- The invariant carried across NumShortestPaths rounds: S is the set of
nodes that have already pushed (flag consumed, no predecessors left); the
predecessor count of every node is its DAG in-degree minus the pushes
already received; trim and to_add are fully consumed between rounds; a
raised flag means no predecessors remain. -/
def NspInv (g : Graph) (σ : St) (S : Finset Nat) : Prop :=
  (∀ v, v < g.n → (σ v).trim = 0 ∧ (σ v).to_add = 0) ∧
  (∀ v, v < g.n →
    (σ v).num_predecessors + dagFromSet g σ S v = dagInDeg g σ v) ∧
  (∀ u ∈ S, u < g.n ∧ (σ u).propogation_flag = false ∧
    (σ u).num_predecessors = 0 ∧ (σ u).current_length ≠ infinity) ∧
  (∀ v, v < g.n → (σ v).propogation_flag = true →
    (σ v).num_predecessors = 0 ∧ (σ v).current_length ≠ infinity)

/-- The state in which phase 4.5 starts: trim consumed, num_successors as
left untouched by phase 4.4 (the DAG out-degree, except possibly an
already-cleared source), and a raised flag only on finished DAG sinks. -/
def DepEntry (g : Graph) (s : Nat) (σ : St) : Prop :=
  LenOK g σ ∧
  (∀ v, v < g.n → (σ v).trim = 0) ∧
  (∀ v, v < g.n → v ≠ s → (σ v).num_successors = dagOutDeg g σ v) ∧
  (s < g.n → (σ s).num_successors = dagOutDeg g σ s ∨ (σ s).num_successors = 0) ∧
  (∀ v, v < g.n → (σ v).propogation_flag = true →
    (σ v).num_successors = 0 ∧ (σ v).current_length ≠ infinity)

instance (g : Graph) (s : Nat) (σ : St) : Decidable (DepEntry g s σ) := by
  unfold DepEntry
  infer_instance

/-- The invariant carried across DependencyPropogation rounds: S is the
set of nodes whose finalized dependency has already been consumed by all
DAG predecessors; every non-source successor count is its DAG out-degree
minus the successors already consumed; a raised flag marks a node
finalized this round (no successors left) that every predecessor will
count exactly once before the next Changes pass lowers it. -/
def DepInv (g : Graph) (s : Nat) (σ : St) (S : Finset Nat) : Prop :=
  (∀ v, v < g.n → (σ v).trim = 0) ∧
  (∀ v, v < g.n → v ≠ s →
    (σ v).num_successors + dagToSet g σ S v = dagOutDeg g σ v) ∧
  (s < g.n → (σ s).num_successors = dagOutDeg g σ s ∨ (σ s).num_successors = 0) ∧
  (∀ v ∈ S, v < g.n ∧ (σ v).propogation_flag = false ∧
    (σ v).num_successors = 0 ∧ (σ v).current_length ≠ infinity) ∧
  (∀ v, v < g.n → (σ v).propogation_flag = true →
    (σ v).num_successors = 0 ∧ (σ v).current_length ≠ infinity)

/-- Multiplicity of v among an edge-destination list E of node u when the
shortest-path test holds (the edge-list analogue of dagMult). -/
def listDagCnt (σ : St) (u : Nat) (E : List Nat) (v : Nat) : Nat :=
  if add32 ((σ u).current_length) 1 = (σ v).current_length then E.count v
  else 0

/-- Number of entries of an edge-destination list E of node u passing the
shortest-path test (the edge-list analogue of dagOutDeg). -/
def listDagLen (σ : St) (u : Nat) (E : List Nat) : Nat :=
  (E.filter
    (fun dst => decide (add32 ((σ u).current_length) 1 = (σ dst).current_length))).length

/-- The total trim increment node v receives when the gated nodes of the
list L push (edge-list form of the per-round trim bookkeeping). -/
def nspListD (g : Graph) (σ : St) (L : List Nat) (v : Nat) : Nat :=
  ((L.filter (fun w => decide (nspGate σ w))).map
    (fun w => dagMult g σ w v)).sum

/-- The total to_add increment node v receives when the gated nodes of the
list L push. -/
def nspListA (g : Graph) (σ : St) (L : List Nat) (v : Nat) : Nat :=
  ((L.filter (fun w => decide (nspGate σ w))).map
    (fun w => dagMult g σ w v * (σ w).num_shortest_paths)).sum

/-- The total accumulator increment contributed by the gated nodes of the
list L in one push round. -/
def nspListAcc (g : Graph) (σ : St) (L : List Nat) : Nat :=
  ((L.filter (fun w => decide (nspGate σ w))).map
    (fun w => dagOutDeg g σ w)).sum

/-- The conditions under which NumShortestPathsChanges::operator() hits no
assert on a node: an applied trim never exceeds the predecessor count, and
when the count reaches zero the flag was not already up. -/
def nspChangesOk (d : NodeData) : Prop :=
  d.trim > 0 → d.trim ≤ d.num_predecessors ∧
    (d.num_predecessors - d.trim = 0 → d.propogation_flag = false)

/-- The node value NumShortestPathsChanges::operator() produces when its
asserts pass (the total function agreeing with the Option-valued embedding
on assert-free inputs). -/
def nspChangesVal (d : NodeData) : NodeData :=
  let d1 :=
    if d.trim > 0 then
      let d2 := { d with num_predecessors := d.num_predecessors - d.trim, trim := 0 }
      if d2.num_predecessors = 0 then { d2 with propogation_flag := true } else d2
    else d
  if d1.to_add > 0 then
    { d1 with num_shortest_paths := add32 (d1.num_shortest_paths) (d1.to_add),
              to_add := 0 }
  else d1

/-- The conditions under which DependencyPropChanges::operator() hits no
assert on a node. -/
def depChangesOk (d : NodeData) : Prop :=
  d.current_length ≠ infinity →
    (d.num_successors = 0 ∧ d.propogation_flag = true → d.trim = 0) ∧
    (¬ (d.num_successors = 0 ∧ d.propogation_flag = true) → d.trim > 0 →
      d.trim ≤ d.num_successors ∧
      (d.num_successors - d.trim = 0 → d.propogation_flag = false))

/-- The node value DependencyPropChanges::operator() produces when its
asserts pass. -/
def depChangesVal (d : NodeData) : NodeData :=
  if d.current_length ≠ infinity then
    let d0 :=
      if d.to_add_float > 0 then
        { d with dependency := d.dependency + d.to_add_float, to_add_float := 0 }
      else d
    if d0.num_successors = 0 ∧ d0.propogation_flag = true then
      { d0 with propogation_flag := false, num_shortest_paths := 0 }
    else if d0.trim > 0 then
      let d1 := { d0 with num_successors := d0.num_successors - d0.trim, trim := 0 }
      if d1.num_successors = 0 then { d1 with propogation_flag := true } else d1
    else d0
  else d

/-- Roles a replica can play in a sync call (gen_sync.hh tags used at the
call sites of gen.cpp). -/
inductive Role where
  | source
  | destination
  | any
deriving DecidableEq

/-- The reduction applied by a sync call. -/
inductive RedOp where
  | rmin
  | radd
  | rset
deriving DecidableEq

/-- The node field a sync call ships. -/
inductive FieldId where
  | current_length
  | num_shortest_paths
  | num_successors
  | num_predecessors
  | trim
  | to_add
  | to_add_float
  | dependency
  | propogation_flag
deriving DecidableEq

/-- One `graph.sync<writeRole, readRole, Reduce, Broadcast[, Bitset]>`
call site. -/
structure SyncCall where
  fld : FieldId
  writeAt : Role
  readAt : Role
  op : RedOp
  bitset : Bool
deriving DecidableEq

/-- The two sync calls issued by PredAndSucc::go (gen.cpp:687-695), in
program order. -/
def predAndSuccSyncs : List SyncCall :=
  [ { fld := .num_predecessors, writeAt := .destination, readAt := .source,
      op := .radd, bitset := true },
    { fld := .num_successors, writeAt := .source, readAt := .any,
      op := .radd, bitset := true } ]

/-- The current_length sync selected at the end of each SSSP round
(gen.cpp:556-591): while the accumulator is non-zero the bitset-filtered
writeDestination/readSource form; on the terminating round the
writeDestination/readAny form, unfiltered exactly when the partition is a
vertex cut. -/
def ssspRoundSyncCall (isVertexCut : Bool) (accumResult : Nat) : SyncCall :=
  if accumResult ≠ 0 then
    { fld := .current_length, writeAt := .destination, readAt := .source,
      op := .rmin, bitset := true }
  else if isVertexCut then
    { fld := .current_length, writeAt := .destination, readAt := .any,
      op := .rmin, bitset := false }
  else
    { fld := .current_length, writeAt := .destination, readAt := .any,
      op := .rmin, bitset := true }

/-- The current_length sync issued by FirstIterationSSSP::go
(gen.cpp:436-438), regardless of the partitioning style. -/
def firstIterationSSSPSyncCall : SyncCall :=
  { fld := .current_length, writeAt := .destination, readAt := .source,
    op := .rmin, bitset := true }

/-- The 4-node path graph s-a-b-c (s=0, a=1, b=2, c=3). -/
def pathGraph4 : Graph :=
  { n := 4, adj := fun u => if u = 0 then [1] else if u = 1 then [2] else if u = 2 then [3] else [] }

/-- The 5-node diamond graph (s=0, a=1, b=2, t=3, plus an isolated node 4). -/
def diamondGraph5 : Graph :=
  { n := 5, adj := fun u => if u = 0 then [1, 2] else if u = 1 then [3] else if u = 2 then [3] else [] }

/-- The 2-node graph with the single edge 0 → 1. -/
def edgeGraph2 : Graph :=
  { n := 2, adj := fun u => if u = 0 then [1] else [] }

theorem updNode_self (σ : St) (v : Nat) (d : NodeData) : updNode σ v d v = d := by
  simp [updNode]

theorem updNode_ne (σ : St) (v w : Nat) (d : NodeData) (h : w ≠ v) :
    updNode σ v d w = σ w := by
  simp [updNode, h]

theorem foldl_updNode_pointwise (f : Nat → NodeData → NodeData) :
    ∀ L : List Nat, L.Nodup → ∀ (σ : St) (v : Nat),
      (L.foldl (fun σ u => updNode σ u (f u (σ u))) σ) v =
        if v ∈ L then f v (σ v) else σ v := by
  intro L
  induction L with
  | nil => intro _ σ v; simp
  | cons u T ih =>
    intro hnd σ v
    rcases List.nodup_cons.mp hnd with ⟨hu, hT⟩
    rw [List.foldl_cons, ih hT]
    by_cases hvT : v ∈ T
    · have hvu : v ≠ u := fun h => hu (h ▸ hvT)
      simp [hvT, updNode, hvu]
    · by_cases hvu : v = u
      · subst hvu; simp [hvT, updNode]
      · simp [hvT, hvu, updNode]

theorem doAll_pointwise (g : Graph) (f : Nat → NodeData → NodeData) (σ : St)
    (v : Nat) :
    doAll g (fun σ u => updNode σ u (f u (σ u))) σ v =
      if v < g.n then f v (σ v) else σ v := by
  rw [doAll, foldl_updNode_pointwise f _ (List.nodup_range g.n) σ v]
  simp [List.mem_range]

theorem initializeIteration_pointwise (g : Graph) (s : Nat) (σ : St) (v : Nat) :
    initializeIteration g s σ v =
      if v < g.n then initializeIterationNode s v (σ v) else σ v :=
  doAll_pointwise g (initializeIterationNode s) σ v

/-- C9: after InitializeIteration runs for source s, the node with global
id s has current_length = 0, old_length = 0, num_shortest_paths = 1 and
propogation_flag = true, while every other local node has current_length
= old_length = infinity. -/
theorem c9_initializeIteration_seeds (g : Graph) (s : Nat) (σ : St) (v : Nat)
    (hv : v < g.n) :
    (v = s →
      (initializeIteration g s σ v).current_length = 0 ∧
      (initializeIteration g s σ v).old_length = 0 ∧
      (initializeIteration g s σ v).num_shortest_paths = 1 ∧
      (initializeIteration g s σ v).propogation_flag = true) ∧
    (v ≠ s →
      (initializeIteration g s σ v).current_length = infinity ∧
      (initializeIteration g s σ v).old_length = infinity) := by
  have h := initializeIteration_pointwise g s σ v
  rw [if_pos hv] at h
  constructor
  · intro hs; subst hs; simp [h, initializeIterationNode]
  · intro hs; simp [h, initializeIterationNode, hs]

/-- C9 witness: the post-state of InitializeIteration evaluated on the
path graph at a concrete non-source node. -/
theorem c9_initializeIteration_seeds_witness :
    1 < pathGraph4.n ∧
    (initializeIteration pathGraph4 0 baseState 1).current_length = infinity ∧
    (initializeIteration pathGraph4 0 baseState 1).old_length = infinity :=
  ⟨by decide,
   (c9_initializeIteration_seeds pathGraph4 0 baseState 1 (by decide)).2
     (by decide)⟩

/-- C10: the unvisited sentinel is (2^32 - 1) / 4 = 1073741823, not the
maximum uint32; for every distance at most the sentinel the BFS candidate
1 + current_length does not wrap in 32-bit arithmetic, and the candidate
proposed from an unvisited node (infinity + 1) can neither lower a
destination already at or above infinity below infinity nor make an
unvisited destination (current_length = infinity) appear visited under
the atomic minimum. -/
theorem c10_infinity_sentinel :
    infinity = 1073741823 ∧
    infinity ≠ 4294967296 - 1 ∧
    (∀ cl, cl ≤ infinity → add32 1 cl = 1 + cl) ∧
    (∀ d, infinity ≤ d → infinity ≤ min d (add32 1 infinity)) ∧
    (∀ d, d = infinity → min d (add32 1 infinity) = infinity) := by
  have hinf : infinity = 1073741823 := by decide
  have hadd : add32 1 infinity = 1073741824 := by decide
  refine ⟨hinf, by decide, fun cl h => ?_, fun d h => ?_, fun d h => ?_⟩
  · rw [hinf] at h; rw [add32]; omega
  · rw [hadd]
    exact le_min h (by rw [hinf]; omega)
  · subst h; rw [hadd]
    exact min_eq_left (by rw [hinf]; omega)

/-- C10 witness: the no-overflow fact and the unvisited-relaxation bound
evaluated at concrete inputs. -/
theorem c10_infinity_sentinel_witness :
    (7 ≤ infinity ∧ add32 1 7 = 1 + 7) ∧
    (infinity ≤ infinity ∧ infinity ≤ min infinity (add32 1 infinity)) :=
  ⟨⟨by decide, c10_infinity_sentinel.2.2.1 7 (by decide)⟩,
   ⟨le_refl _, c10_infinity_sentinel.2.2.2.1 infinity (le_refl _)⟩⟩

/-- The BFS fixed point reached on the path graph from source 0, used as
a concrete instance below. -/
def ssspDemoFix : St :=
  (ssspGo pathGraph4 6 0
    (initializeIteration pathGraph4 0 (initializeGraph pathGraph4 baseState))).getD
    baseState

/-- The concrete state in which phase 4.4 starts on the path graph for
source 0 (after the BFS and the DAG counter). -/
def nspEntryDemo : St := predAndSucc pathGraph4 ssspDemoFix

/-- The concrete state in which phase 4.5 starts on the path graph for
source 0 (after the shortest-path-count loop). -/
def depEntryDemo : St :=
  (numShortestPathsLoop pathGraph4 6 nspEntryDemo).toOption.getD baseState

/-- C1: on the path graph s-a-b-c run on one host with source s, after the
dependency-propagation round loop of phase 4.5 terminates the dependency
values are dependency(a) = 2, dependency(b) = 1, dependency(c) = 0. -/
theorem c1_path_graph_dependency :
    (runThroughDep 8 pathGraph4 0 (initializeGraph pathGraph4 baseState)).map
      (fun τ => ((τ 1).dependency, (τ 2).dependency, (τ 3).dependency)) =
    some (2, 1, 0) := by
  decide

/-- C2: on the 5-node diamond graph (s → a, s → b, a → t, b → t) run on one
host with source s, after the shortest-path-count round loop of phase 4.4
terminates, num_shortest_paths(t) = 2. -/
theorem c2_diamond_num_shortest_paths :
    (runThroughNsp 8 diamondGraph5 0 (initializeGraph diamondGraph5 baseState)).map
      (fun τ => (τ 3).num_shortest_paths) = some 2 := by
  decide

/-- C3 (failing input): on the one-host 2-node graph 0 → 1, after the
complete first source iteration (source 0) and InitializeIteration for the
second source (source 1), the previous source node 0 still has
num_shortest_paths = 1 — the preceding iteration's phases did not zero it,
contradicting the claimed reset of num_shortest_paths for every non-source
node (the intended invariant appears in the commented-out assert at
gen.cpp:350). -/
theorem c3_stale_num_shortest_paths :
    (runSource 8 edgeGraph2 0 (initializeGraph edgeGraph2 baseState)).map
      (fun τ => ((initializeIteration edgeGraph2 1 τ) 0).num_shortest_paths) =
    some 1 := by
  decide

/-- C5 (counterexample): PredAndSucc::go does not sync num_predecessors
with write-role Source and read-role Destination; the claim as stated is
false of the call sites. -/
theorem c5_counterexample :
    ¬ ∃ c ∈ predAndSuccSyncs, c.fld = FieldId.num_predecessors ∧
        c.writeAt = Role.source ∧ c.readAt = Role.destination := by
  decide

/-- C5 (amended): after the local DAG-classification pass,
num_predecessors is synchronized with an add-reduce using write-role
Destination and read-role Source, and num_successors with an add-reduce
using write-role Source and read-role Any (both bitset-filtered). -/
theorem c5_predAndSucc_sync_roles :
    predAndSuccSyncs =
      [ { fld := .num_predecessors, writeAt := .destination, readAt := .source,
          op := .radd, bitset := true },
        { fld := .num_successors, writeAt := .source, readAt := .any,
          op := .radd, bitset := true } ] := rfl

/-- C7 (counterexample): under a vertex cut the mid-loop current_length
sync (accumulator non-zero) is still the bitset-filtered readSource form,
so not every bitset-filtered BFS sync is replaced by an unfiltered
Any-read sync. -/
theorem c7_counterexample :
    ¬ ((ssspRoundSyncCall true 1).readAt = Role.any ∧
       (ssspRoundSyncCall true 1).bitset = false) := by
  decide

/-- C7 (amended): in the BFS phase only the terminating-round sync
(accumulator zero) depends on the partitioning style — unfiltered
writeDestination/readAny under a vertex cut, bitset-filtered
writeDestination/readAny under an edge cut — while every mid-loop sync and
the first-iteration sync use the bitset-filtered writeDestination /
readSource form regardless of the partitioning style. -/
theorem c7_sssp_sync_selection :
    (∀ vc : Bool, ∀ a : Nat, a ≠ 0 → ssspRoundSyncCall vc a =
      { fld := .current_length, writeAt := .destination, readAt := .source,
        op := .rmin, bitset := true }) ∧
    ssspRoundSyncCall true 0 =
      { fld := .current_length, writeAt := .destination, readAt := .any,
        op := .rmin, bitset := false } ∧
    ssspRoundSyncCall false 0 =
      { fld := .current_length, writeAt := .destination, readAt := .any,
        op := .rmin, bitset := true } ∧
    firstIterationSSSPSyncCall =
      { fld := .current_length, writeAt := .destination, readAt := .source,
        op := .rmin, bitset := true } := by
  refine ⟨fun vc a ha => ?_, rfl, rfl, rfl⟩
  simp [ssspRoundSyncCall, ha]

/-- C7 witness: the amended characterization evaluated at a concrete
mid-loop sync under an edge cut. -/
theorem c7_sssp_sync_selection_witness :
    (3 : Nat) ≠ 0 ∧ ssspRoundSyncCall false 3 =
      { fld := .current_length, writeAt := .destination, readAt := .source,
        op := .rmin, bitset := true } :=
  ⟨by decide, c7_sssp_sync_selection.1 false 3 (by decide)⟩

theorem add32_one_of_le_infinity {x : Nat} (h : x ≤ infinity) :
    add32 1 x = x + 1 := by
  have h1 : x ≤ 1073741823 := le_trans h (by decide)
  rw [add32]
  omega

theorem ssspEdgeRelax_fst (g : Graph) (u : Nat) (y : St × Nat) (dst : Nat) :
    (ssspEdgeRelax g u y dst).1 =
      updNode y.1 dst
        { y.1 dst with current_length := (min ((y.1 dst).current_length)
            (add32 1 ((y.1 u).current_length))) } := by
  unfold ssspEdgeRelax
  dsimp only
  split <;> rfl

theorem ssspEdgeRelax_snd (g : Graph) (u : Nat) (y : St × Nat) (dst : Nat) :
    (ssspEdgeRelax g u y dst).2 =
      if (y.1 dst).current_length > add32 1 ((y.1 u).current_length) then y.2 + 1
      else y.2 := by
  unfold ssspEdgeRelax
  dsimp only
  split <;> rfl

theorem ssspEdgeRelax_facts (g : Graph) (u : Nat) (y : St × Nat) (dst : Nat) :
    (∀ v, ((ssspEdgeRelax g u y dst).1 v).current_length ≤
      (y.1 v).current_length) ∧
    (∀ v, (ssspEdgeRelax g u y dst).1 v =
      { y.1 v with current_length :=
          ((ssspEdgeRelax g u y dst).1 v).current_length }) ∧
    y.2 ≤ (ssspEdgeRelax g u y dst).2 ∧
    ((ssspEdgeRelax g u y dst).2 = y.2 ↔
      ∀ v, ((ssspEdgeRelax g u y dst).1 v).current_length =
        (y.1 v).current_length) := by
  have hf := ssspEdgeRelax_fst g u y dst
  have hs := ssspEdgeRelax_snd g u y dst
  refine ⟨?_, ?_, ?_, ?_⟩
  · intro v
    rw [hf]
    by_cases hv : v = dst
    · subst hv; rw [updNode_self]; exact min_le_left _ _
    · rw [updNode_ne _ _ _ _ hv]
  · intro v
    rw [hf]
    by_cases hv : v = dst
    · subst hv; rw [updNode_self]
    · rw [updNode_ne _ _ _ _ hv]
  · rw [hs]; split <;> omega
  · rw [hs]
    by_cases hgt : (y.1 dst).current_length > add32 1 ((y.1 u).current_length)
    · rw [if_pos hgt]
      constructor
      · intro habs; omega
      · intro hall
        have := hall dst
        rw [hf, updNode_self] at this
        simp only at this
        have hmin : min ((y.1 dst).current_length)
            (add32 1 ((y.1 u).current_length)) =
            add32 1 ((y.1 u).current_length) := min_eq_right (le_of_lt hgt)
        rw [hmin] at this
        omega
    · rw [if_neg hgt]
      constructor
      · intro _ v
        rw [hf]
        by_cases hv : v = dst
        · subst hv; rw [updNode_self]
          simp only
          exact min_eq_left (not_lt.mp hgt)
        · rw [updNode_ne _ _ _ _ hv]
      · intro _; rfl

theorem ssspEdgeRelax_old (g : Graph) (u : Nat) (y : St × Nat) (dst v : Nat) :
    ((ssspEdgeRelax g u y dst).1 v).old_length = (y.1 v).old_length := by
  rw [ssspEdgeRelax_fst]
  by_cases hv : v = dst
  · subst hv; rw [updNode_self]
  · rw [updNode_ne _ _ _ _ hv]

theorem ssspEdges_fold_old (g : Graph) (u : Nat) :
    ∀ (E : List Nat) (y : St × Nat) (v : Nat),
      ((E.foldl (ssspEdgeRelax g u) y).1 v).old_length = (y.1 v).old_length := by
  intro E
  induction E with
  | nil => intro y v; rfl
  | cons dst R ih =>
    intro y v
    rw [List.foldl_cons, ih, ssspEdgeRelax_old]

theorem ssspEdges_fold_facts (g : Graph) (u : Nat) :
    ∀ (E : List Nat) (y : St × Nat),
      (∀ v, ((E.foldl (ssspEdgeRelax g u) y).1 v).current_length ≤
        (y.1 v).current_length) ∧
      (∀ v, (E.foldl (ssspEdgeRelax g u) y).1 v =
        { y.1 v with current_length :=
            ((E.foldl (ssspEdgeRelax g u) y).1 v).current_length }) ∧
      y.2 ≤ (E.foldl (ssspEdgeRelax g u) y).2 ∧
      ((E.foldl (ssspEdgeRelax g u) y).2 = y.2 ↔
        ∀ v, ((E.foldl (ssspEdgeRelax g u) y).1 v).current_length =
          (y.1 v).current_length) := by
  intro E
  induction E with
  | nil =>
    intro y
    refine ⟨fun v => le_refl _, fun v => ?_, le_refl _, ?_⟩
    · rfl
    · simp
  | cons dst R ih =>
    intro y
    rw [List.foldl_cons]
    obtain ⟨s1, s2, s3, s4⟩ := ssspEdgeRelax_facts g u y dst
    obtain ⟨i1, i2, i3, i4⟩ := ih (ssspEdgeRelax g u y dst)
    refine ⟨?_, ?_, ?_, ?_⟩
    · intro v; exact le_trans (i1 v) (s1 v)
    · intro v
      rw [i2 v, s2 v]
    · exact le_trans s3 i3
    · constructor
      · intro h
        have hmid : (ssspEdgeRelax g u y dst).2 = y.2 := le_antisymm (h ▸ i3) s3
        have hend : (R.foldl (ssspEdgeRelax g u) (ssspEdgeRelax g u y dst)).2 =
            (ssspEdgeRelax g u y dst).2 := by omega
        intro v
        exact (i4.mp hend v).trans (s4.mp hmid v)
      · intro hall
        have hstep : ∀ v, ((ssspEdgeRelax g u y dst).1 v).current_length =
            (y.1 v).current_length := by
          intro v
          have h1 := i1 v
          have h2 := s1 v
          have h3 := hall v
          omega
        have hrest : ∀ v,
            ((R.foldl (ssspEdgeRelax g u) (ssspEdgeRelax g u y dst)).1 v).current_length =
            ((ssspEdgeRelax g u y dst).1 v).current_length := by
          intro v
          have h1 := i1 v
          have h2 := hstep v
          have h3 := hall v
          omega
        rw [i4.mpr hrest, s4.mpr hstep]

theorem ssspEdges_fold_formula (g : Graph) (u : Nat) :
    ∀ (E : List Nat) (y : St × Nat), (y.1 u).current_length ≤ infinity →
      ∀ v, ((E.foldl (ssspEdgeRelax g u) y).1 v).current_length =
        if v ∈ E then
          min ((y.1 v).current_length) ((y.1 u).current_length + 1)
        else (y.1 v).current_length := by
  intro E
  induction E with
  | nil => intro y h v; simp
  | cons dst R ih =>
    intro y h v
    rw [List.foldl_cons]
    have hadd : add32 1 ((y.1 u).current_length) = (y.1 u).current_length + 1 :=
      add32_one_of_le_infinity h
    have hf := ssspEdgeRelax_fst g u y dst
    have hclu : ((ssspEdgeRelax g u y dst).1 u).current_length =
        (y.1 u).current_length := by
      rw [hf]
      by_cases hu : u = dst
      · subst hu; rw [updNode_self]
        simp only [hadd]
        exact min_eq_left (Nat.le_succ _)
      · rw [updNode_ne _ _ _ _ hu]
    have ih1 := ih (ssspEdgeRelax g u y dst) (by rw [hclu]; exact h) v
    rw [ih1, hclu]
    have hcl : ∀ w, ((ssspEdgeRelax g u y dst).1 w).current_length =
        if w = dst then
          min ((y.1 w).current_length) ((y.1 u).current_length + 1)
        else (y.1 w).current_length := by
      intro w
      rw [hf]
      by_cases hw : w = dst
      · subst hw; rw [updNode_self, if_pos rfl, hadd]
      · rw [updNode_ne _ _ _ _ hw, if_neg hw]
    rw [hcl v]
    by_cases hvR : v ∈ R
    · rw [if_pos hvR, if_pos (List.mem_cons_of_mem _ hvR)]
      by_cases hvd : v = dst
      · subst hvd
        rw [if_pos rfl, min_assoc, min_self]
      · rw [if_neg hvd]
    · rw [if_neg hvR]
      by_cases hvd : v = dst
      · subst hvd
        rw [if_pos rfl, if_pos (List.mem_cons_self _ _)]
      · rw [if_neg hvd, if_neg (by simp [List.mem_cons, hvd, hvR])]

theorem ssspNode_skip (g : Graph) (x : St × Nat) (u : Nat)
    (h : ¬ (x.1 u).old_length > (x.1 u).current_length) :
    ssspNode g x u = x := by
  unfold ssspNode
  rw [if_neg h]

theorem ssspNode_facts (g : Graph) (x : St × Nat) (u : Nat) :
    (∀ v, ((ssspNode g x u).1 v).current_length ≤ (x.1 v).current_length) ∧
    x.2 ≤ (ssspNode g x u).2 ∧
    ((ssspNode g x u).2 = x.2 ↔
      ∀ v, ((ssspNode g x u).1 v).current_length = (x.1 v).current_length) ∧
    (∀ v, v ≠ u → ((ssspNode g x u).1 v).old_length = (x.1 v).old_length) ∧
    ((ssspNode g x u).2 = x.2 →
      ((ssspNode g x u).1 u).old_length ≤ ((ssspNode g x u).1 u).current_length) := by
  by_cases hproc : (x.1 u).old_length > (x.1 u).current_length
  · have hdef : ssspNode g x u =
        (g.adj u).foldl (ssspEdgeRelax g u)
          (updNode x.1 u { x.1 u with old_length := (x.1 u).current_length }, x.2) := by
      unfold ssspNode
      rw [if_pos hproc]
    obtain ⟨i1, i2, i3, i4⟩ := ssspEdges_fold_facts g u (g.adj u)
      (updNode x.1 u { x.1 u with old_length := (x.1 u).current_length }, x.2)
    have hclbase : ∀ v,
        ((updNode x.1 u { x.1 u with old_length := (x.1 u).current_length }) v).current_length =
        (x.1 v).current_length := by
      intro v
      by_cases hv : v = u
      · subst hv; rw [updNode_self]
      · rw [updNode_ne _ _ _ _ hv]
    have holdbase : ∀ v, v ≠ u →
        ((updNode x.1 u { x.1 u with old_length := (x.1 u).current_length }) v).old_length =
        (x.1 v).old_length := by
      intro v hv
      rw [updNode_ne _ _ _ _ hv]
    rw [hdef]
    refine ⟨?_, i3, ?_, ?_, ?_⟩
    · intro v; exact le_trans (i1 v) (le_of_eq (hclbase v))
    · constructor
      · intro h v
        exact (i4.mp h v).trans (hclbase v)
      · intro hall
        refine i4.mpr fun v => ?_
        rw [hclbase v]; exact hall v
    · intro v hv
      have := i2 v
      rw [this]
      exact holdbase v hv
    · intro h
      have hcls := i4.mp h
      have hold : ∀ v, (((g.adj u).foldl (ssspEdgeRelax g u)
          (updNode x.1 u { x.1 u with old_length := (x.1 u).current_length }, x.2)).1 v).old_length =
          ((updNode x.1 u { x.1 u with old_length := (x.1 u).current_length }) v).old_length := by
        intro v
        rw [i2 v]
      rw [hold u, updNode_self, hcls u, hclbase u]
  · rw [ssspNode_skip g x u hproc]
    refine ⟨fun v => le_refl _, le_refl _, ⟨fun _ v => rfl, fun _ => rfl⟩, fun v _ => rfl, fun _ => ?_⟩
    omega

theorem ssspFold_facts (g : Graph) :
    ∀ (L : List Nat), L.Nodup → ∀ (x : St × Nat),
      (∀ v, ((L.foldl (ssspNode g) x).1 v).current_length ≤
        (x.1 v).current_length) ∧
      x.2 ≤ (L.foldl (ssspNode g) x).2 ∧
      ((L.foldl (ssspNode g) x).2 = x.2 ↔
        ∀ v, ((L.foldl (ssspNode g) x).1 v).current_length =
          (x.1 v).current_length) ∧
      (∀ v, v ∉ L → ((L.foldl (ssspNode g) x).1 v).old_length =
        (x.1 v).old_length) ∧
      ((L.foldl (ssspNode g) x).2 = x.2 → ∀ u ∈ L,
        ((L.foldl (ssspNode g) x).1 u).old_length ≤
        ((L.foldl (ssspNode g) x).1 u).current_length) := by
  intro L
  induction L with
  | nil =>
    intro _ x
    exact ⟨fun v => le_refl _, le_refl _, ⟨fun _ v => rfl, fun _ => rfl⟩,
      fun v _ => rfl, fun _ u hu => absurd hu (by simp)⟩
  | cons w T ih =>
    intro hnd x
    rcases List.nodup_cons.mp hnd with ⟨hw, hT⟩
    rw [List.foldl_cons]
    obtain ⟨q1, q2, q3, q4, q5⟩ := ssspNode_facts g x w
    obtain ⟨i1, i2, i3, i4, i5⟩ := ih hT (ssspNode g x w)
    refine ⟨?_, le_trans q2 i2, ?_, ?_, ?_⟩
    · intro v; exact le_trans (i1 v) (q1 v)
    · constructor
      · intro h v
        have hmid : (ssspNode g x w).2 = x.2 := le_antisymm (h ▸ i2) q2
        have hend : (T.foldl (ssspNode g) (ssspNode g x w)).2 =
            (ssspNode g x w).2 := by omega
        exact (i3.mp hend v).trans (q3.mp hmid v)
      · intro hall
        have hstep : ∀ v, ((ssspNode g x w).1 v).current_length =
            (x.1 v).current_length := by
          intro v
          have h1 := i1 v
          have h2 := q1 v
          have h3 := hall v
          omega
        have hrest : ∀ v,
            ((T.foldl (ssspNode g) (ssspNode g x w)).1 v).current_length =
            ((ssspNode g x w).1 v).current_length := by
          intro v
          have h1 := i1 v
          have h2 := hstep v
          have h3 := hall v
          omega
        rw [i3.mpr hrest, q3.mpr hstep]
    · intro v hv
      have hvT : v ∉ T := fun h => hv (List.mem_cons_of_mem _ h)
      have hvw : v ≠ w := fun h => hv (by rw [h]; exact List.mem_cons_self _ _)
      rw [i4 v hvT, q4 v hvw]
    · intro h u hu
      have hmid : (ssspNode g x w).2 = x.2 := le_antisymm (h ▸ i2) q2
      have hend : (T.foldl (ssspNode g) (ssspNode g x w)).2 =
          (ssspNode g x w).2 := by omega
      rcases List.mem_cons.mp hu with hu | hu
      · subst hu
        have hold := i4 u hw
        have hcl := i3.mp hend u
        rw [hold, hcl]
        exact q5 hmid
      · exact i5 hend u hu

theorem ssspRound_noop (g : Graph) (σ : St)
    (h : ∀ u, u < g.n → (σ u).old_length ≤ (σ u).current_length) :
    ssspRound g σ = (σ, 0) := by
  rw [ssspRound, doAllAcc]
  have hgen : ∀ L : List Nat, (∀ u ∈ L, u < g.n) →
      L.foldl (ssspNode g) (σ, 0) = (σ, 0) := by
    intro L
    induction L with
    | nil => intro _; rfl
    | cons w T ih =>
      intro hmem
      rw [List.foldl_cons,
        ssspNode_skip g (σ, 0) w (not_lt.mpr (h w (hmem w (List.mem_cons_self _ _))))]
      exact ih fun u hu => hmem u (List.mem_cons_of_mem _ hu)
  exact hgen _ fun u hu => List.mem_range.mp hu

theorem ssspRound_fixed (g : Graph) (σ σ1 : St) (h : ssspRound g σ = (σ1, 0)) :
    ssspRound g σ1 = (σ1, 0) := by
  obtain ⟨f1, f2, f3, f4, f5⟩ :=
    ssspFold_facts g (List.range g.n) (List.nodup_range g.n) (σ, 0)
  rw [ssspRound, doAllAcc] at h
  have hacc : ((List.range g.n).foldl (ssspNode g) (σ, 0)).2 = 0 := by rw [h]
  have hst : ((List.range g.n).foldl (ssspNode g) (σ, 0)).1 = σ1 := by rw [h]
  have holds : ∀ u, u < g.n → (σ1 u).old_length ≤ (σ1 u).current_length := by
    intro u hu
    have := f5 hacc u (List.mem_range.mpr hu)
    rw [hst] at this
    exact this
  exact ssspRound_noop g σ1 holds

theorem ssspLoop_fixed (g : Graph) :
    ∀ (fuel : Nat) (σ σ1 : St), ssspLoop g fuel σ = some σ1 →
      ssspRound g σ1 = (σ1, 0) := by
  intro fuel
  induction fuel with
  | zero =>
    intro σ σ1 h
    rw [ssspLoop] at h
    by_cases hz : (ssspRound g σ).2 = 0
    · rw [if_pos hz] at h
      have h1 : (ssspRound g σ).1 = σ1 := Option.some.inj h
      have : ssspRound g σ = (σ1, 0) := by
        rw [← h1, ← hz]
      exact ssspRound_fixed g σ σ1 this
    · rw [if_neg hz] at h
      exact absurd h (by simp)
  | succ f ihf =>
    intro σ σ1 h
    rw [ssspLoop] at h
    by_cases hz : (ssspRound g σ).2 = 0
    · rw [if_pos hz] at h
      have h1 : (ssspRound g σ).1 = σ1 := Option.some.inj h
      have : ssspRound g σ = (σ1, 0) := by
        rw [← h1, ← hz]
      exact ssspRound_fixed g σ σ1 this
    · rw [if_neg hz] at h
      exact ihf _ _ h

/-- C6: in the BFS engine, a round skips every node whose distance did not
improve (old_length ≤ current_length) and relaxes the outgoing edges of
exactly the nodes with old_length > current_length, applying the
candidate current_length + 1 as an atomic minimum at each destination and
recording the new old_length; the round accumulator is zero exactly when
the round improved no distance (on one host the distributed sum is the
local accumulator), and whenever the round loop terminates the returned
state is a fixed point whose next round would again relax nothing. -/
theorem c6_sssp_rounds :
    (∀ (g : Graph) (x : St × Nat) (u : Nat),
      ¬ (x.1 u).old_length > (x.1 u).current_length → ssspNode g x u = x) ∧
    (∀ (g : Graph) (σ : St) (acc u : Nat),
      (σ u).old_length > (σ u).current_length →
      (σ u).current_length ≤ infinity →
      (∀ v, ((ssspNode g (σ, acc) u).1 v).current_length =
        if v ∈ g.adj u then
          min ((σ v).current_length) ((σ u).current_length + 1)
        else (σ v).current_length) ∧
      ((ssspNode g (σ, acc) u).1 u).old_length = (σ u).current_length) ∧
    (∀ (g : Graph) (σ : St),
      (ssspRound g σ).2 = 0 ↔
        ∀ v, ((ssspRound g σ).1 v).current_length = (σ v).current_length) ∧
    (∀ (g : Graph) (fuel : Nat) (σ σ1 : St),
      ssspLoop g fuel σ = some σ1 → ssspRound g σ1 = (σ1, 0)) := by
  refine ⟨ssspNode_skip, ?_, ?_, ssspLoop_fixed⟩
  · intro g σ acc u hproc hcl
    have hdef : ssspNode g (σ, acc) u =
        (g.adj u).foldl (ssspEdgeRelax g u)
          (updNode σ u { σ u with old_length := (σ u).current_length }, acc) := by
      unfold ssspNode
      rw [if_pos hproc]
    have hclbase : ∀ v,
        ((updNode σ u { σ u with old_length := (σ u).current_length }) v).current_length =
        (σ v).current_length := by
      intro v
      by_cases hv : v = u
      · subst hv; rw [updNode_self]
      · rw [updNode_ne _ _ _ _ hv]
    constructor
    · intro v
      rw [hdef]
      have := ssspEdges_fold_formula g u (g.adj u)
        (updNode σ u { σ u with old_length := (σ u).current_length }, acc)
        (by rw [hclbase u]; exact hcl) v
      rw [this, hclbase u, hclbase v]
    · rw [hdef]
      simp only [ssspEdges_fold_old, updNode_self]
  · intro g σ
    obtain ⟨_, _, f3, _, _⟩ :=
      ssspFold_facts g (List.range g.n) (List.nodup_range g.n) (σ, 0)
    rw [ssspRound, doAllAcc]
    exact f3

/-- C6 witness: the BFS loop on the path graph terminates at a state the
next round leaves unchanged with a zero accumulator. -/
theorem c6_sssp_rounds_witness :
    ssspLoop pathGraph4 6
      (firstIterationSSSP pathGraph4 0
        (initializeIteration pathGraph4 0 (initializeGraph pathGraph4 baseState))) =
      some ssspDemoFix ∧
    ssspRound pathGraph4 ssspDemoFix = (ssspDemoFix, 0) :=
  ⟨rfl, c6_sssp_rounds.2.2.2 pathGraph4 6
    (firstIterationSSSP pathGraph4 0
      (initializeIteration pathGraph4 0 (initializeGraph pathGraph4 baseState)))
    ssspDemoFix rfl⟩

theorem add32_add32 (a b c : Nat) : add32 (add32 a b) c = add32 a (b + c) := by
  rw [add32, add32, add32, Nat.mod_add_mod, Nat.add_assoc]

theorem add32_right_one {x : Nat} (h : x ≤ infinity) : add32 x 1 = x + 1 := by
  have h1 : x ≤ 1073741823 := le_trans h (by decide)
  rw [add32]
  omega

theorem add32_small {a b : Nat} (h : a + b < 4294967296) : add32 a b = a + b := by
  rw [add32]
  exact Nat.mod_eq_of_lt h

theorem updNode_updNode_same (σ : St) (v : Nat) (d1 d2 : NodeData) :
    updNode (updNode σ v d1) v d2 = updNode σ v d2 := by
  funext w
  by_cases hw : w = v
  · subst hw; rw [updNode_self, updNode_self]
  · rw [updNode_ne _ _ _ _ hw, updNode_ne _ _ _ _ hw, updNode_ne _ _ _ _ hw]

theorem foldlOpt_pointwise (q : NodeData → Option NodeData)
    (val : NodeData → NodeData) :
    ∀ (L : List Nat), L.Nodup → ∀ σ : St,
      (∀ u ∈ L, q (σ u) = some (val (σ u))) →
      L.foldl (fun acc u => acc.bind fun τ => (q (τ u)).map (updNode τ u))
          (some σ) =
        some (fun v => if v ∈ L then val (σ v) else σ v) := by
  intro L
  induction L with
  | nil =>
    intro _ σ _
    simp
  | cons u T ih =>
    intro hnd σ hq
    rcases List.nodup_cons.mp hnd with ⟨hu, hT⟩
    rw [List.foldl_cons]
    have hstep : (some σ).bind
        (fun τ => (q (τ u)).map (updNode τ u)) =
        some (updNode σ u (val (σ u))) := by
      show (q (σ u)).map (updNode σ u) = _
      rw [hq u (List.mem_cons_self _ _)]
      rfl
    rw [hstep, ih hT (updNode σ u (val (σ u)))
      (fun w hw => by
        have hwu : w ≠ u := fun h => hu (h ▸ hw)
        rw [updNode_ne _ _ _ _ hwu]
        exact hq w (List.mem_cons_of_mem _ hw))]
    congr 1
    funext v
    by_cases hvT : v ∈ T
    · have hvu : v ≠ u := fun h => hu (h ▸ hvT)
      rw [if_pos hvT, if_pos (List.mem_cons_of_mem _ hvT),
        updNode_ne _ _ _ _ hvu]
    · rw [if_neg hvT]
      by_cases hvu : v = u
      · subst hvu
        rw [updNode_self, if_pos (List.mem_cons_self _ _)]
      · rw [updNode_ne _ _ _ _ hvu, if_neg (by simp [List.mem_cons, hvu, hvT])]

theorem listSum_filter_range (n : Nat) (p : Nat → Prop) [DecidablePred p]
    (f : Nat → Nat) :
    (((List.range n).filter (fun u => decide (p u))).map f).sum =
      ∑ u ∈ (Finset.range n).filter p, f u := by
  induction n with
  | zero => simp
  | succ m ih =>
    rw [List.range_succ, Finset.range_succ, List.filter_append,
      List.map_append, List.sum_append, ih, Finset.filter_insert]
    by_cases hp : p m
    · rw [if_pos hp, Finset.sum_insert (by simp)]
      simp [hp, Nat.add_comm]
    · rw [if_neg hp]
      simp [hp]

theorem mem_filter_range (n : Nat) (p : Nat → Prop) [DecidablePred p]
    (v : Nat) :
    v ∈ (List.range n).filter (fun u => decide (p u)) ↔
      v ∈ (Finset.range n).filter p := by
  rw [List.mem_filter, Finset.mem_filter, List.mem_range, Finset.mem_range]
  simp

theorem dagMult_congr (g : Graph) (σ τ : St)
    (h : ∀ w, (τ w).current_length = (σ w).current_length) (u v : Nat) :
    dagMult g τ u v = dagMult g σ u v := by
  rw [dagMult, dagMult, h u, h v]

theorem dagInDeg_congr (g : Graph) (σ τ : St)
    (h : ∀ w, (τ w).current_length = (σ w).current_length) (v : Nat) :
    dagInDeg g τ v = dagInDeg g σ v := by
  rw [dagInDeg, dagInDeg]
  exact Finset.sum_congr rfl fun u _ => dagMult_congr g σ τ h u v

theorem dagFromSet_congr (g : Graph) (σ τ : St)
    (h : ∀ w, (τ w).current_length = (σ w).current_length) (S : Finset Nat)
    (v : Nat) :
    dagFromSet g τ S v = dagFromSet g σ S v := by
  rw [dagFromSet, dagFromSet]
  exact Finset.sum_congr rfl fun u _ => dagMult_congr g σ τ h u v

theorem dagOutDeg_congr (g : Graph) (σ τ : St)
    (h : ∀ w, (τ w).current_length = (σ w).current_length) (u : Nat) :
    dagOutDeg g τ u = dagOutDeg g σ u := by
  rw [dagOutDeg, dagOutDeg]
  congr 1
  apply List.filter_congr
  intro v _
  rw [h u, h v]

theorem dagToSet_congr (g : Graph) (σ τ : St)
    (h : ∀ w, (τ w).current_length = (σ w).current_length) (S : Finset Nat)
    (u : Nat) :
    dagToSet g τ S u = dagToSet g σ S u := by
  rw [dagToSet, dagToSet]
  exact Finset.sum_congr rfl fun v _ => dagMult_congr g σ τ h u v

theorem dagFromSet_le_dagInDeg (g : Graph) (σ : St) (S : Finset Nat)
    (hS : S ⊆ Finset.range g.n) (v : Nat) :
    dagFromSet g σ S v ≤ dagInDeg g σ v :=
  Finset.sum_le_sum_of_subset hS

theorem dagFromSet_union (g : Graph) (σ : St) (S T : Finset Nat)
    (h : Disjoint S T) (v : Nat) :
    dagFromSet g σ (S ∪ T) v = dagFromSet g σ S v + dagFromSet g σ T v :=
  Finset.sum_union h

theorem dagFromSet_pos_elim (g : Graph) (σ : St) (S : Finset Nat) (v : Nat)
    (h : dagFromSet g σ S v ≠ 0) : ∃ u ∈ S, dagMult g σ u v ≠ 0 := by
  by_contra hall
  push_neg at hall
  exact h (Finset.sum_eq_zero hall)

theorem dagMult_len (g : Graph) (σ : St) (u v : Nat)
    (h : dagMult g σ u v ≠ 0) :
    add32 ((σ u).current_length) 1 = (σ v).current_length := by
  rw [dagMult] at h
  by_cases hc : add32 ((σ u).current_length) 1 = (σ v).current_length
  · exact hc
  · rw [if_neg hc] at h
    exact absurd rfl h

theorem nspPushEdge_true (g : Graph) (u : Nat) (y : St × Nat) (dst : Nat)
    (h : add32 ((y.1 u).current_length) 1 = (y.1 dst).current_length) :
    nspPushEdge g u y dst =
      (updNode y.1 dst { y.1 dst with
          to_add := add32 ((y.1 dst).to_add) ((y.1 u).num_shortest_paths),
          trim := add32 ((y.1 dst).trim) 1 }, y.2 + 1) := by
  unfold nspPushEdge
  dsimp only
  rw [if_pos h, updNode_updNode_same, updNode_self]

theorem nspPushEdge_false (g : Graph) (u : Nat) (y : St × Nat) (dst : Nat)
    (h : ¬ add32 ((y.1 u).current_length) 1 = (y.1 dst).current_length) :
    nspPushEdge g u y dst = y := by
  unfold nspPushEdge
  dsimp only
  rw [if_neg h]

theorem listDagCnt_cons_ne (σ : St) (u : Nat) (dst : Nat) (R : List Nat)
    (v : Nat) (hv : v ≠ dst) :
    listDagCnt σ u (dst :: R) v = listDagCnt σ u R v := by
  rw [listDagCnt, listDagCnt, List.count_cons]
  have h2 : ¬ (dst = v) := fun h => hv h.symm
  simp [hv, h2]

theorem listDagCnt_cons_false (σ : St) (u : Nat) (dst : Nat) (R : List Nat)
    (v : Nat)
    (hc : ¬ add32 ((σ u).current_length) 1 = (σ dst).current_length) :
    listDagCnt σ u (dst :: R) v = listDagCnt σ u R v := by
  by_cases hv : v = dst
  · subst hv
    rw [listDagCnt, listDagCnt, if_neg hc, if_neg hc]
  · exact listDagCnt_cons_ne σ u dst R v hv

theorem nspPushEdges_fold (g : Graph) (u : Nat) :
    ∀ (E : List Nat) (y : St × Nat),
      (∀ v, ((E.foldl (nspPushEdge g u) y).1 v).trim =
        if listDagCnt y.1 u E v = 0 then (y.1 v).trim
        else add32 ((y.1 v).trim) (listDagCnt y.1 u E v)) ∧
      (∀ v, ((E.foldl (nspPushEdge g u) y).1 v).to_add =
        if listDagCnt y.1 u E v = 0 then (y.1 v).to_add
        else add32 ((y.1 v).to_add)
          (listDagCnt y.1 u E v * (y.1 u).num_shortest_paths)) ∧
      (∀ v, (E.foldl (nspPushEdge g u) y).1 v =
        { y.1 v with
            trim := ((E.foldl (nspPushEdge g u) y).1 v).trim,
            to_add := ((E.foldl (nspPushEdge g u) y).1 v).to_add }) ∧
      (E.foldl (nspPushEdge g u) y).2 = y.2 + listDagLen y.1 u E := by
  intro E
  induction E with
  | nil =>
    intro y
    refine ⟨fun v => ?_, fun v => ?_, fun v => rfl, ?_⟩
    · simp [listDagCnt]
    · simp [listDagCnt]
    · simp [listDagLen]
  | cons dst R ih =>
    intro y
    rw [List.foldl_cons]
    by_cases hc : add32 ((y.1 u).current_length) 1 = (y.1 dst).current_length
    · rw [nspPushEdge_true g u y dst hc]
      obtain ⟨i1, i2, i3, i4⟩ := ih (updNode y.1 dst
        { y.1 dst with
            to_add := add32 ((y.1 dst).to_add) ((y.1 u).num_shortest_paths),
            trim := add32 ((y.1 dst).trim) 1 }, y.2 + 1)
      have hcl : ∀ w, ((updNode y.1 dst
          { y.1 dst with
              to_add := add32 ((y.1 dst).to_add) ((y.1 u).num_shortest_paths),
              trim := add32 ((y.1 dst).trim) 1 }) w).current_length =
          (y.1 w).current_length := by
        intro w
        by_cases hw : w = dst
        · subst hw; rw [updNode_self]
        · rw [updNode_ne _ _ _ _ hw]
      have hnsp : ∀ w, ((updNode y.1 dst
          { y.1 dst with
              to_add := add32 ((y.1 dst).to_add) ((y.1 u).num_shortest_paths),
              trim := add32 ((y.1 dst).trim) 1 }) w).num_shortest_paths =
          (y.1 w).num_shortest_paths := by
        intro w
        by_cases hw : w = dst
        · subst hw; rw [updNode_self]
        · rw [updNode_ne _ _ _ _ hw]
      have htrim : ∀ w, ((updNode y.1 dst
          { y.1 dst with
              to_add := add32 ((y.1 dst).to_add) ((y.1 u).num_shortest_paths),
              trim := add32 ((y.1 dst).trim) 1 }) w).trim =
          if w = dst then add32 ((y.1 dst).trim) 1 else (y.1 w).trim := by
        intro w
        by_cases hw : w = dst
        · subst hw; rw [updNode_self, if_pos rfl]
        · rw [updNode_ne _ _ _ _ hw, if_neg hw]
      have htoadd : ∀ w, ((updNode y.1 dst
          { y.1 dst with
              to_add := add32 ((y.1 dst).to_add) ((y.1 u).num_shortest_paths),
              trim := add32 ((y.1 dst).trim) 1 }) w).to_add =
          if w = dst then add32 ((y.1 dst).to_add) ((y.1 u).num_shortest_paths)
          else (y.1 w).to_add := by
        intro w
        by_cases hw : w = dst
        · subst hw; rw [updNode_self, if_pos rfl]
        · rw [updNode_ne _ _ _ _ hw, if_neg hw]
      have hcnt : ∀ v, listDagCnt (updNode y.1 dst
          { y.1 dst with
              to_add := add32 ((y.1 dst).to_add) ((y.1 u).num_shortest_paths),
              trim := add32 ((y.1 dst).trim) 1 }) u R v =
          listDagCnt y.1 u R v := by
        intro v
        rw [listDagCnt, listDagCnt, hcl u, hcl v]
      have hlen : listDagLen (updNode y.1 dst
          { y.1 dst with
              to_add := add32 ((y.1 dst).to_add) ((y.1 u).num_shortest_paths),
              trim := add32 ((y.1 dst).trim) 1 }) u R =
          listDagLen y.1 u R := by
        rw [listDagLen, listDagLen, hcl u]
        congr 1
        apply List.filter_congr
        intro w _
        rw [hcl w]
      have hcntcons : ∀ v, v = dst →
          listDagCnt y.1 u (dst :: R) v = listDagCnt y.1 u R v + 1 := by
        intro v hv
        subst hv
        rw [listDagCnt, listDagCnt, if_pos hc, if_pos hc, List.count_cons]
        simp
      refine ⟨fun v => ?_, fun v => ?_, fun v => ?_, ?_⟩
      · rw [i1 v, hcnt v, htrim v]
        by_cases hv : v = dst
        · subst hv
          rw [hcntcons v rfl, if_pos rfl,
            if_neg (Nat.succ_ne_zero (listDagCnt y.1 u R v))]
          by_cases h0 : listDagCnt y.1 u R v = 0
          · rw [if_pos h0, h0]
          · rw [if_neg h0, add32_add32, Nat.add_comm 1 (listDagCnt y.1 u R v)]
        · rw [if_neg hv, listDagCnt_cons_ne y.1 u dst R v hv]
      · rw [i2 v, hcnt v, htoadd v, hnsp u]
        by_cases hv : v = dst
        · subst hv
          rw [hcntcons v rfl,
            if_neg (Nat.succ_ne_zero (listDagCnt y.1 u R v))]
          by_cases h0 : listDagCnt y.1 u R v = 0
          · rw [if_pos h0, if_pos rfl, h0]
            rw [Nat.zero_add, Nat.one_mul]
          · rw [if_neg h0, if_pos rfl, add32_add32, Nat.succ_mul,
              Nat.add_comm ((y.1 u).num_shortest_paths)
                (listDagCnt y.1 u R v * (y.1 u).num_shortest_paths)]
        · rw [if_neg hv, listDagCnt_cons_ne y.1 u dst R v hv]
      · have h3 := i3 v
        by_cases hv : v = dst
        · subst hv
          simp only [updNode_self] at h3
          exact h3
        · simp only [updNode_ne _ _ _ _ hv] at h3
          exact h3
      · rw [i4, hlen]
        have hlc : listDagLen y.1 u (dst :: R) = listDagLen y.1 u R + 1 := by
          rw [listDagLen, listDagLen, List.filter_cons]
          simp [hc]
        rw [hlc]
        omega
    · rw [nspPushEdge_false g u y dst hc]
      obtain ⟨i1, i2, i3, i4⟩ := ih y
      have hlen : listDagLen y.1 u (dst :: R) = listDagLen y.1 u R := by
        rw [listDagLen, listDagLen, List.filter_cons]
        simp [hc]
      refine ⟨fun v => ?_, fun v => ?_, i3, ?_⟩
      · rw [i1 v, listDagCnt_cons_false y.1 u dst R v hc]
      · rw [i2 v, listDagCnt_cons_false y.1 u dst R v hc]
      · rw [i4, hlen]

theorem listDagCnt_adj (g : Graph) (σ : St) (u v : Nat) :
    listDagCnt σ u (g.adj u) v = dagMult g σ u v := rfl

theorem listDagLen_adj (g : Graph) (σ : St) (u : Nat) :
    listDagLen σ u (g.adj u) = dagOutDeg g σ u := rfl

theorem numShortestPathsNode_skip (g : Graph) (x : St × Nat) (u : Nat)
    (h : ¬ nspGate x.1 u) : numShortestPathsNode g x u = x := by
  have h' : ¬ ((x.1 u).current_length ≠ infinity ∧
      (x.1 u).propogation_flag = true ∧ (x.1 u).num_successors > 0) := h
  unfold numShortestPathsNode
  rw [if_neg h']

theorem numShortestPathsNode_proc (g : Graph) (x : St × Nat) (u : Nat)
    (h : nspGate x.1 u) :
    (∀ v, ((numShortestPathsNode g x u).1 v).trim =
      if dagMult g x.1 u v = 0 then (x.1 v).trim
      else add32 ((x.1 v).trim) (dagMult g x.1 u v)) ∧
    (∀ v, ((numShortestPathsNode g x u).1 v).to_add =
      if dagMult g x.1 u v = 0 then (x.1 v).to_add
      else add32 ((x.1 v).to_add)
        (dagMult g x.1 u v * (x.1 u).num_shortest_paths)) ∧
    (∀ v, ((numShortestPathsNode g x u).1 v).propogation_flag =
      if v = u then false else (x.1 v).propogation_flag) ∧
    (∀ v,
      ((numShortestPathsNode g x u).1 v).current_length =
        (x.1 v).current_length ∧
      ((numShortestPathsNode g x u).1 v).old_length = (x.1 v).old_length ∧
      ((numShortestPathsNode g x u).1 v).num_shortest_paths =
        (x.1 v).num_shortest_paths ∧
      ((numShortestPathsNode g x u).1 v).num_successors =
        (x.1 v).num_successors ∧
      ((numShortestPathsNode g x u).1 v).num_predecessors =
        (x.1 v).num_predecessors) ∧
    (numShortestPathsNode g x u).2 = x.2 + dagOutDeg g x.1 u := by
  obtain ⟨e1, e2, e3, e4⟩ := nspPushEdges_fold g u (g.adj u) x
  simp only [listDagCnt_adj, listDagLen_adj] at e1 e2 e4
  have hdef : numShortestPathsNode g x u =
      (updNode ((g.adj u).foldl (nspPushEdge g u) x).1 u
        { ((g.adj u).foldl (nspPushEdge g u) x).1 u with
            propogation_flag := false },
       ((g.adj u).foldl (nspPushEdge g u) x).2) := by
    have h' : (x.1 u).current_length ≠ infinity ∧
        (x.1 u).propogation_flag = true ∧ (x.1 u).num_successors > 0 := h
    unfold numShortestPathsNode
    rw [if_pos h']
  rw [hdef]
  refine ⟨fun v => ?_, fun v => ?_, fun v => ?_, fun v => ?_, e4⟩
  · by_cases hv : v = u
    · subst hv
      show ((updNode _ v _) v).trim = _
      rw [updNode_self]
      exact e1 v
    · show ((updNode _ u _) v).trim = _
      rw [updNode_ne _ _ _ _ hv]
      exact e1 v
  · by_cases hv : v = u
    · subst hv
      show ((updNode _ v _) v).to_add = _
      rw [updNode_self]
      exact e2 v
    · show ((updNode _ u _) v).to_add = _
      rw [updNode_ne _ _ _ _ hv]
      exact e2 v
  · by_cases hv : v = u
    · subst hv
      show ((updNode _ v _) v).propogation_flag = _
      rw [updNode_self, if_pos rfl]
    · show ((updNode _ u _) v).propogation_flag = _
      rw [updNode_ne _ _ _ _ hv, if_neg hv]
      exact (congrArg NodeData.propogation_flag (e3 v)).trans rfl
  · by_cases hv : v = u
    · subst hv
      show ((updNode _ v _) v).current_length = _ ∧ _
      simp only [updNode_self]
      refine ⟨?_, ?_, ?_, ?_, ?_⟩
      · exact (congrArg NodeData.current_length (e3 v)).trans rfl
      · exact (congrArg NodeData.old_length (e3 v)).trans rfl
      · exact (congrArg NodeData.num_shortest_paths (e3 v)).trans rfl
      · exact (congrArg NodeData.num_successors (e3 v)).trans rfl
      · exact (congrArg NodeData.num_predecessors (e3 v)).trans rfl
    · show ((updNode _ u _) v).current_length = _ ∧ _
      simp only [updNode_ne _ _ _ _ hv]
      refine ⟨?_, ?_, ?_, ?_, ?_⟩
      · exact (congrArg NodeData.current_length (e3 v)).trans rfl
      · exact (congrArg NodeData.old_length (e3 v)).trans rfl
      · exact (congrArg NodeData.num_shortest_paths (e3 v)).trans rfl
      · exact (congrArg NodeData.num_successors (e3 v)).trans rfl
      · exact (congrArg NodeData.num_predecessors (e3 v)).trans rfl

theorem nspListD_cons_pos (g : Graph) (σ : St) (w : Nat) (T : List Nat)
    (hg : nspGate σ w) (v : Nat) :
    nspListD g σ (w :: T) v = dagMult g σ w v + nspListD g σ T v := by
  rw [nspListD, nspListD, List.filter_cons]
  simp [hg]

theorem nspListD_cons_neg (g : Graph) (σ : St) (w : Nat) (T : List Nat)
    (hg : ¬ nspGate σ w) (v : Nat) :
    nspListD g σ (w :: T) v = nspListD g σ T v := by
  rw [nspListD, nspListD, List.filter_cons]
  simp [hg]

theorem nspListA_cons_pos (g : Graph) (σ : St) (w : Nat) (T : List Nat)
    (hg : nspGate σ w) (v : Nat) :
    nspListA g σ (w :: T) v =
      dagMult g σ w v * (σ w).num_shortest_paths + nspListA g σ T v := by
  rw [nspListA, nspListA, List.filter_cons]
  simp [hg]

theorem nspListA_cons_neg (g : Graph) (σ : St) (w : Nat) (T : List Nat)
    (hg : ¬ nspGate σ w) (v : Nat) :
    nspListA g σ (w :: T) v = nspListA g σ T v := by
  rw [nspListA, nspListA, List.filter_cons]
  simp [hg]

theorem nspListAcc_cons_pos (g : Graph) (σ : St) (w : Nat) (T : List Nat)
    (hg : nspGate σ w) :
    nspListAcc g σ (w :: T) = dagOutDeg g σ w + nspListAcc g σ T := by
  rw [nspListAcc, nspListAcc, List.filter_cons]
  simp [hg]

theorem nspListAcc_cons_neg (g : Graph) (σ : St) (w : Nat) (T : List Nat)
    (hg : ¬ nspGate σ w) :
    nspListAcc g σ (w :: T) = nspListAcc g σ T := by
  rw [nspListAcc, nspListAcc, List.filter_cons]
  simp [hg]

theorem nspList_congr (g : Graph) (σ τ : St) (T : List Nat)
    (hcl : ∀ w, (τ w).current_length = (σ w).current_length)
    (hnsp : ∀ w, (τ w).num_shortest_paths = (σ w).num_shortest_paths)
    (hsucc : ∀ w, (τ w).num_successors = (σ w).num_successors)
    (hflag : ∀ w ∈ T, (τ w).propogation_flag = (σ w).propogation_flag) :
    (∀ v, nspListD g τ T v = nspListD g σ T v) ∧
    (∀ v, nspListA g τ T v = nspListA g σ T v) ∧
    nspListAcc g τ T = nspListAcc g σ T := by
  have hfil : T.filter (fun w => decide (nspGate τ w)) =
      T.filter (fun w => decide (nspGate σ w)) := by
    apply List.filter_congr
    intro w hw
    have : nspGate τ w ↔ nspGate σ w := by
      rw [nspGate, nspGate, hcl w, hflag w hw, hsucc w]
    simp [this]
  have hmap1 : ∀ v (w : Nat), dagMult g τ w v = dagMult g σ w v :=
    fun v w => dagMult_congr g σ τ hcl w v
  refine ⟨fun v => ?_, fun v => ?_, ?_⟩
  · rw [nspListD, nspListD, hfil]
    congr 1
    apply List.map_congr_left
    intro w _
    exact hmap1 v w
  · rw [nspListA, nspListA, hfil]
    congr 1
    apply List.map_congr_left
    intro w _
    rw [hmap1 v w, hnsp w]
  · rw [nspListAcc, nspListAcc, hfil]
    congr 1
    apply List.map_congr_left
    intro w _
    exact dagOutDeg_congr g σ τ hcl w

theorem nspListA_eq_zero (g : Graph) (σ : St) (T : List Nat) (v : Nat)
    (h : nspListD g σ T v = 0) : nspListA g σ T v = 0 := by
  rw [nspListD] at h
  rw [nspListA]
  apply List.sum_eq_zero
  intro a ha
  rw [List.mem_map] at ha
  obtain ⟨w, hw, rfl⟩ := ha
  have hz : dagMult g σ w v = 0 :=
    List.sum_eq_zero_iff.mp h _ (List.mem_map_of_mem _ hw)
  simp [hz]

theorem nspPushNodes_fold (g : Graph) (L : List Nat) (x : St × Nat)
    (hnd : L.Nodup) :
    (∀ v, ((L.foldl (numShortestPathsNode g) x).1 v).trim =
      if nspListD g x.1 L v = 0 then (x.1 v).trim
      else add32 ((x.1 v).trim) (nspListD g x.1 L v)) ∧
    (∀ v, ((L.foldl (numShortestPathsNode g) x).1 v).to_add =
      if nspListD g x.1 L v = 0 then (x.1 v).to_add
      else add32 ((x.1 v).to_add) (nspListA g x.1 L v)) ∧
    (∀ v, ((L.foldl (numShortestPathsNode g) x).1 v).propogation_flag =
      if v ∈ L ∧ nspGate x.1 v then false
      else (x.1 v).propogation_flag) ∧
    (∀ v,
      ((L.foldl (numShortestPathsNode g) x).1 v).current_length =
        (x.1 v).current_length ∧
      ((L.foldl (numShortestPathsNode g) x).1 v).old_length =
        (x.1 v).old_length ∧
      ((L.foldl (numShortestPathsNode g) x).1 v).num_shortest_paths =
        (x.1 v).num_shortest_paths ∧
      ((L.foldl (numShortestPathsNode g) x).1 v).num_successors =
        (x.1 v).num_successors ∧
      ((L.foldl (numShortestPathsNode g) x).1 v).num_predecessors =
        (x.1 v).num_predecessors) ∧
    (L.foldl (numShortestPathsNode g) x).2 = x.2 + nspListAcc g x.1 L := by
  induction L generalizing x with
  | nil =>
    simp [nspListD, nspListA, nspListAcc]
  | cons u T ih =>
    obtain ⟨hu, hT⟩ := List.nodup_cons.mp hnd
    rw [List.foldl_cons]
    by_cases hg : nspGate x.1 u
    · obtain ⟨p1, p2, p3, p4, p5⟩ := numShortestPathsNode_proc g x u hg
      have hwu : ∀ w ∈ T, w ≠ u := fun w hw h => hu (h ▸ hw)
      have hcl : ∀ w, ((numShortestPathsNode g x u).1 w).current_length =
          (x.1 w).current_length := fun w => (p4 w).1
      have hol : ∀ w, ((numShortestPathsNode g x u).1 w).old_length =
          (x.1 w).old_length := fun w => (p4 w).2.1
      have hnsp : ∀ w, ((numShortestPathsNode g x u).1 w).num_shortest_paths =
          (x.1 w).num_shortest_paths := fun w => (p4 w).2.2.1
      have hsucc : ∀ w, ((numShortestPathsNode g x u).1 w).num_successors =
          (x.1 w).num_successors := fun w => (p4 w).2.2.2.1
      have hpred : ∀ w, ((numShortestPathsNode g x u).1 w).num_predecessors =
          (x.1 w).num_predecessors := fun w => (p4 w).2.2.2.2
      have hflagT : ∀ w ∈ T,
          ((numShortestPathsNode g x u).1 w).propogation_flag =
          (x.1 w).propogation_flag := by
        intro w hw
        rw [p3 w, if_neg (hwu w hw)]
      obtain ⟨CD, CA, CAcc⟩ :=
        nspList_congr g x.1 (numShortestPathsNode g x u).1 T hcl hnsp hsucc
          hflagT
      have hgT : ∀ w ∈ T,
          nspGate ((numShortestPathsNode g x u).1) w ↔ nspGate x.1 w := by
        intro w hw
        rw [nspGate, nspGate, hcl w, hflagT w hw, hsucc w]
      obtain ⟨I1, I2, I3, I4, I5⟩ := ih (numShortestPathsNode g x u) hT
      refine ⟨fun v => ?_, fun v => ?_, fun v => ?_, fun v => ?_, ?_⟩
      · rw [I1 v, CD v, p1 v, nspListD_cons_pos g x.1 u T hg v]
        by_cases hm : dagMult g x.1 u v = 0 <;>
          by_cases hD : nspListD g x.1 T v = 0 <;>
          simp [hm, hD, add32_add32, Nat.add_eq_zero]
      · rw [I2 v, CD v, CA v, p2 v, nspListD_cons_pos g x.1 u T hg v,
          nspListA_cons_pos g x.1 u T hg v]
        by_cases hm : dagMult g x.1 u v = 0
        · by_cases hD : nspListD g x.1 T v = 0 <;> simp [hm, hD]
        · by_cases hD : nspListD g x.1 T v = 0
          · have hA := nspListA_eq_zero g x.1 T v hD
            simp [hm, hD, hA, Nat.add_eq_zero]
          · simp [hm, hD, add32_add32, Nat.add_eq_zero]
      · rw [I3 v]
        by_cases hvT : v ∈ T
        · have hgv := hgT v hvT
          by_cases hgx : nspGate x.1 v
          · rw [if_pos ⟨hvT, hgv.mpr hgx⟩,
              if_pos ⟨List.mem_cons_of_mem u hvT, hgx⟩]
          · have h1 : ¬ (v ∈ T ∧ nspGate ((numShortestPathsNode g x u).1) v) :=
              fun h => hgx (hgv.mp h.2)
            have h2 : ¬ (v ∈ u :: T ∧ nspGate x.1 v) := fun h => hgx h.2
            rw [if_neg h1, if_neg h2, p3 v, if_neg (hwu v hvT)]
        · have h1 : ¬ (v ∈ T ∧ nspGate ((numShortestPathsNode g x u).1) v) :=
            fun h => hvT h.1
          rw [if_neg h1, p3 v]
          by_cases hvu : v = u
          · subst hvu
            rw [if_pos rfl, if_pos ⟨List.mem_cons_self _ _, hg⟩]
          · have h2 : ¬ (v ∈ u :: T ∧ nspGate x.1 v) :=
              fun h => (List.mem_cons.mp h.1).elim hvu hvT
            rw [if_neg hvu, if_neg h2]
      · exact ⟨((I4 v).1).trans (hcl v), ((I4 v).2.1).trans (hol v),
          ((I4 v).2.2.1).trans (hnsp v), ((I4 v).2.2.2.1).trans (hsucc v),
          ((I4 v).2.2.2.2).trans (hpred v)⟩
      · rw [I5, CAcc, p5, nspListAcc_cons_pos g x.1 u T hg]
        exact Nat.add_assoc x.2 _ _
    · rw [numShortestPathsNode_skip g x u hg]
      obtain ⟨I1, I2, I3, I4, I5⟩ := ih x hT
      refine ⟨fun v => ?_, fun v => ?_, fun v => ?_, I4, ?_⟩
      · rw [I1 v, nspListD_cons_neg g x.1 u T hg v]
      · rw [I2 v, nspListD_cons_neg g x.1 u T hg v,
          nspListA_cons_neg g x.1 u T hg v]
      · rw [I3 v]
        by_cases hgx : nspGate x.1 v
        · have hvu : v ≠ u := fun h => hg (h ▸ hgx)
          by_cases hvT : v ∈ T
          · rw [if_pos ⟨hvT, hgx⟩, if_pos ⟨List.mem_cons_of_mem u hvT, hgx⟩]
          · have h1 : ¬ (v ∈ T ∧ nspGate x.1 v) := fun h => hvT h.1
            have h2 : ¬ (v ∈ u :: T ∧ nspGate x.1 v) :=
              fun h => (List.mem_cons.mp h.1).elim hvu hvT
            rw [if_neg h1, if_neg h2]
        · have h1 : ¬ (v ∈ T ∧ nspGate x.1 v) := fun h => hgx h.2
          have h2 : ¬ (v ∈ u :: T ∧ nspGate x.1 v) := fun h => hgx h.2
          rw [if_neg h1, if_neg h2]
      · rw [I5, nspListAcc_cons_neg g x.1 u T hg]

theorem nspListD_range (g : Graph) (σ : St) (v : Nat) :
    nspListD g σ (List.range g.n) v = dagFromSet g σ (nspPushSet g σ) v := by
  rw [nspListD, dagFromSet, nspPushSet]
  exact listSum_filter_range g.n (nspGate σ) (fun w => dagMult g σ w v)

theorem nspListA_range (g : Graph) (σ : St) (v : Nat) :
    nspListA g σ (List.range g.n) v = nspPushAmt g σ v := by
  rw [nspListA, nspPushAmt, nspPushSet]
  exact listSum_filter_range g.n (nspGate σ)
    (fun w => dagMult g σ w v * (σ w).num_shortest_paths)

theorem nspListAcc_range (g : Graph) (σ : St) :
    nspListAcc g σ (List.range g.n) =
      ∑ u ∈ nspPushSet g σ, dagOutDeg g σ u := by
  rw [nspListAcc, nspPushSet]
  exact listSum_filter_range g.n (nspGate σ) (fun w => dagOutDeg g σ w)

theorem mem_nspPushSet (g : Graph) (σ : St) (v : Nat) :
    v ∈ nspPushSet g σ ↔ v < g.n ∧ nspGate σ v := by
  rw [nspPushSet, Finset.mem_filter, Finset.mem_range]

theorem nspPushPass_spec (g : Graph) (σ : St) :
    (∀ v, ((numShortestPathsPushPass g σ).1 v).trim =
      if dagFromSet g σ (nspPushSet g σ) v = 0 then (σ v).trim
      else add32 ((σ v).trim) (dagFromSet g σ (nspPushSet g σ) v)) ∧
    (∀ v, ((numShortestPathsPushPass g σ).1 v).to_add =
      if dagFromSet g σ (nspPushSet g σ) v = 0 then (σ v).to_add
      else add32 ((σ v).to_add) (nspPushAmt g σ v)) ∧
    (∀ v, ((numShortestPathsPushPass g σ).1 v).propogation_flag =
      if v ∈ nspPushSet g σ then false else (σ v).propogation_flag) ∧
    (∀ v,
      ((numShortestPathsPushPass g σ).1 v).current_length =
        (σ v).current_length ∧
      ((numShortestPathsPushPass g σ).1 v).old_length = (σ v).old_length ∧
      ((numShortestPathsPushPass g σ).1 v).num_shortest_paths =
        (σ v).num_shortest_paths ∧
      ((numShortestPathsPushPass g σ).1 v).num_successors =
        (σ v).num_successors ∧
      ((numShortestPathsPushPass g σ).1 v).num_predecessors =
        (σ v).num_predecessors) ∧
    (numShortestPathsPushPass g σ).2 =
      ∑ u ∈ nspPushSet g σ, dagOutDeg g σ u := by
  obtain ⟨F1, F2, F3, F4, F5⟩ :=
    nspPushNodes_fold g (List.range g.n) (σ, 0) (List.nodup_range g.n)
  refine ⟨fun v => ?_, fun v => ?_, fun v => ?_, F4, ?_⟩
  · have h := F1 v
    rw [nspListD_range] at h
    exact h
  · have h := F2 v
    rw [nspListD_range, nspListA_range] at h
    exact h
  · have h := F3 v
    show ((List.foldl (numShortestPathsNode g) (σ, 0)
      (List.range g.n)).1 v).propogation_flag = _
    rw [h]
    by_cases hv : v ∈ nspPushSet g σ
    · have hv' := (mem_nspPushSet g σ v).mp hv
      rw [if_pos ⟨List.mem_range.mpr hv'.1, hv'.2⟩, if_pos hv]
    · have h1 : ¬ (v ∈ List.range g.n ∧ nspGate σ v) := fun hh =>
        hv ((mem_nspPushSet g σ v).mpr ⟨List.mem_range.mp hh.1, hh.2⟩)
      rw [if_neg h1, if_neg hv]
  · have h := F5
    rw [nspListAcc_range] at h
    show (List.foldl (numShortestPathsNode g) (σ, 0) (List.range g.n)).2 = _
    exact h.trans (Nat.zero_add _)

theorem nspChangesNode_eq_some (d : NodeData) (h : nspChangesOk d) :
    numShortestPathsChangesNode d = some (nspChangesVal d) := by
  by_cases ht : d.trim > 0
  · obtain ⟨hle, hfl⟩ := h ht
    by_cases hz : d.num_predecessors - d.trim = 0
    · have hf := hfl hz
      simp [numShortestPathsChangesNode, nspChangesVal, ht, hle, hz, hf]
    · simp [numShortestPathsChangesNode, nspChangesVal, ht, hle, hz]
  · simp [numShortestPathsChangesNode, nspChangesVal, ht]

theorem nspChangesVal_trim (d : NodeData) : (nspChangesVal d).trim = 0 := by
  rw [nspChangesVal]
  by_cases ht : d.trim > 0
  · by_cases hz : d.num_predecessors - d.trim = 0 <;>
      by_cases ha : d.to_add > 0 <;> simp [ht, hz, ha]
  · have ht0 : d.trim = 0 := Nat.eq_zero_of_not_pos ht
    by_cases ha : d.to_add > 0 <;> simp [ht, ha, ht0]

theorem nspChangesVal_to_add (d : NodeData) : (nspChangesVal d).to_add = 0 := by
  rw [nspChangesVal]
  by_cases ht : d.trim > 0
  · by_cases hz : d.num_predecessors - d.trim = 0 <;>
      by_cases ha : d.to_add > 0 <;> simp [ht, hz, ha]
    <;> exact Nat.eq_zero_of_not_pos ha
  · by_cases ha : d.to_add > 0 <;> simp [ht, ha]
    exact Nat.eq_zero_of_not_pos ha

theorem nspChangesVal_pred (d : NodeData) :
    (nspChangesVal d).num_predecessors = d.num_predecessors - d.trim := by
  rw [nspChangesVal]
  by_cases ht : d.trim > 0
  · by_cases hz : d.num_predecessors - d.trim = 0 <;>
      by_cases ha : d.to_add > 0 <;> simp [ht, hz, ha]
  · have ht0 : d.trim = 0 := Nat.eq_zero_of_not_pos ht
    by_cases ha : d.to_add > 0 <;> simp [ht, ha, ht0]

theorem nspChangesVal_flag (d : NodeData) :
    (nspChangesVal d).propogation_flag =
      if d.trim > 0 ∧ d.num_predecessors - d.trim = 0 then true
      else d.propogation_flag := by
  rw [nspChangesVal]
  by_cases ht : d.trim > 0
  · by_cases hz : d.num_predecessors - d.trim = 0 <;>
      by_cases ha : d.to_add > 0 <;> simp [ht, hz, ha]
  · by_cases ha : d.to_add > 0 <;> simp [ht, ha]

theorem nspChangesVal_nsp (d : NodeData) :
    (nspChangesVal d).num_shortest_paths =
      if d.to_add > 0 then add32 (d.num_shortest_paths) (d.to_add)
      else d.num_shortest_paths := by
  rw [nspChangesVal]
  by_cases ht : d.trim > 0
  · by_cases hz : d.num_predecessors - d.trim = 0 <;>
      by_cases ha : d.to_add > 0 <;> simp [ht, hz, ha]
  · by_cases ha : d.to_add > 0 <;> simp [ht, ha]

theorem nspChangesVal_frame (d : NodeData) :
    (nspChangesVal d).current_length = d.current_length ∧
    (nspChangesVal d).old_length = d.old_length ∧
    (nspChangesVal d).num_successors = d.num_successors ∧
    (nspChangesVal d).to_add_float = d.to_add_float ∧
    (nspChangesVal d).dependency = d.dependency := by
  rw [nspChangesVal]
  by_cases ht : d.trim > 0
  · by_cases hz : d.num_predecessors - d.trim = 0 <;>
      by_cases ha : d.to_add > 0 <;> simp [ht, hz, ha]
  · by_cases ha : d.to_add > 0 <;> simp [ht, ha]

theorem nspChanges_spec (g : Graph) (σ : St)
    (hok : ∀ u, u < g.n → nspChangesOk (σ u)) :
    numShortestPathsChanges g σ =
      some (fun v => if v ∈ List.range g.n then nspChangesVal (σ v)
        else σ v) := by
  rw [numShortestPathsChanges, doAllOpt]
  exact foldlOpt_pointwise numShortestPathsChangesNode nspChangesVal
    (List.range g.n) (List.nodup_range g.n) σ
    (fun u hu => nspChangesNode_eq_some (σ u) (hok u (List.mem_range.mp hu)))

theorem LenOK_congr (g : Graph) (σ τ : St)
    (hcl : ∀ w, (τ w).current_length = (σ w).current_length)
    (h : LenOK g σ) : LenOK g τ := by
  obtain ⟨h1, h2, h3, h4⟩ := h
  refine ⟨fun v hv => ?_, h2, fun v hv => ?_, fun v hv => ?_⟩
  · rw [hcl v]
    exact h1 v hv
  · rw [dagInDeg_congr g σ τ hcl v]
    exact h3 v hv
  · rw [dagOutDeg_congr g σ τ hcl v]
    exact h4 v hv

theorem nspRound_step (g : Graph) (σ : St) (S : Finset Nat)
    (hL : LenOK g σ) (hI : NspInv g σ S) :
    ∃ ρ, numShortestPathsRound g σ =
        some (ρ, ∑ u ∈ nspPushSet g σ, dagOutDeg g σ u) ∧
      (∀ v, (ρ v).current_length = (σ v).current_length) ∧
      NspInv g ρ (S ∪ nspPushSet g σ) ∧ LenOK g ρ := by
  obtain ⟨hI1, hI2, hI3, hI4⟩ := hI
  obtain ⟨hL1, hL2, hL3, hL4⟩ := id hL
  obtain ⟨P1, P2, P3, P4, P5⟩ := nspPushPass_spec g σ
  have hSrange : S ⊆ Finset.range g.n :=
    fun u hu => Finset.mem_range.mpr (hI3 u hu).1
  have hPSrange : nspPushSet g σ ⊆ Finset.range g.n :=
    Finset.filter_subset _ _
  have hdisj : Disjoint S (nspPushSet g σ) := by
    rw [Finset.disjoint_left]
    intro u hu hupp
    have h1 := (hI3 u hu).2.1
    have h2 := ((mem_nspPushSet g σ u).mp hupp).2.2.1
    rw [h1] at h2
    exact Bool.false_ne_true h2
  have hsum : ∀ v, dagFromSet g σ (S ∪ nspPushSet g σ) v ≤ dagInDeg g σ v :=
    fun v => dagFromSet_le_dagInDeg g σ _
      (Finset.union_subset hSrange hPSrange) v
  have hsplit : ∀ v, dagFromSet g σ (S ∪ nspPushSet g σ) v =
      dagFromSet g σ S v + dagFromSet g σ (nspPushSet g σ) v :=
    fun v => dagFromSet_union g σ S (nspPushSet g σ) hdisj v
  have hfs : ∀ v, v < g.n →
      dagFromSet g σ (nspPushSet g σ) v ≤ (σ v).num_predecessors := by
    intro v hv
    have h1 := hI2 v hv
    have h2 := hsum v
    have h3 := hsplit v
    omega
  have hfPS0 : ∀ v, v < g.n → (σ v).num_predecessors = 0 →
      dagFromSet g σ (nspPushSet g σ) v = 0 := by
    intro v hv hp
    have := hfs v hv
    omega
  have htrim : ∀ v, v < g.n →
      ((numShortestPathsPushPass g σ).1 v).trim =
        dagFromSet g σ (nspPushSet g σ) v := by
    intro v hv
    rw [P1 v, (hI1 v hv).1]
    by_cases h0 : dagFromSet g σ (nspPushSet g σ) v = 0
    · rw [if_pos h0, h0]
    · rw [if_neg h0]
      have hlt : dagFromSet g σ (nspPushSet g σ) v < 4294967296 :=
        lt_of_le_of_lt (dagFromSet_le_dagInDeg g σ _ hPSrange v) (hL3 v hv)
      exact (add32_small (by omega)).trans (Nat.zero_add _)
  have hok : ∀ u, u < g.n →
      nspChangesOk ((numShortestPathsPushPass g σ).1 u) := by
    intro u hu ht
    have htr := htrim u hu
    constructor
    · rw [htr, (P4 u).2.2.2.2]
      exact hfs u hu
    · intro hz
      rw [P3 u]
      by_cases hpu : u ∈ nspPushSet g σ
      · rw [if_pos hpu]
      · rw [if_neg hpu]
        by_contra hfl
        rw [Bool.not_eq_false] at hfl
        have hp0 := (hI4 u hu hfl).1
        have := hfs u hu
        rw [htr] at ht
        omega
  have hchg := nspChanges_spec g (numShortestPathsPushPass g σ).1 hok
  have hround : numShortestPathsRound g σ =
      some ((fun v => if v ∈ List.range g.n then
          nspChangesVal ((numShortestPathsPushPass g σ).1 v)
        else (numShortestPathsPushPass g σ).1 v),
        (numShortestPathsPushPass g σ).2) := by
    show (numShortestPathsChanges g (numShortestPathsPushPass g σ).1).map
      (fun τ => (τ, (numShortestPathsPushPass g σ).2)) = _
    rw [hchg]
    rfl
  have hclρ : ∀ v,
      (if v ∈ List.range g.n then
          nspChangesVal ((numShortestPathsPushPass g σ).1 v)
        else (numShortestPathsPushPass g σ).1 v).current_length =
      (σ v).current_length := by
    intro v
    by_cases hv : v ∈ List.range g.n
    · rw [if_pos hv]
      exact ((nspChangesVal_frame _).1).trans ((P4 v).1)
    · rw [if_neg hv]
      exact (P4 v).1
  have hpredρ : ∀ v, v < g.n →
      (if v ∈ List.range g.n then
          nspChangesVal ((numShortestPathsPushPass g σ).1 v)
        else (numShortestPathsPushPass g σ).1 v).num_predecessors =
      (σ v).num_predecessors - dagFromSet g σ (nspPushSet g σ) v := by
    intro v hv
    rw [if_pos (List.mem_range.mpr hv), nspChangesVal_pred,
      (P4 v).2.2.2.2, htrim v hv]
  have hInv1 : ∀ v, v < g.n →
      (if v ∈ List.range g.n then
          nspChangesVal ((numShortestPathsPushPass g σ).1 v)
        else (numShortestPathsPushPass g σ).1 v).trim = 0 ∧
      (if v ∈ List.range g.n then
          nspChangesVal ((numShortestPathsPushPass g σ).1 v)
        else (numShortestPathsPushPass g σ).1 v).to_add = 0 := by
    intro v hv
    rw [if_pos (List.mem_range.mpr hv)]
    exact ⟨nspChangesVal_trim _, nspChangesVal_to_add _⟩
  have hflagρ : ∀ v, v < g.n →
      (if v ∈ List.range g.n then
          nspChangesVal ((numShortestPathsPushPass g σ).1 v)
        else (numShortestPathsPushPass g σ).1 v).propogation_flag =
      if ((numShortestPathsPushPass g σ).1 v).trim > 0 ∧
          ((numShortestPathsPushPass g σ).1 v).num_predecessors -
            ((numShortestPathsPushPass g σ).1 v).trim = 0 then true
      else ((numShortestPathsPushPass g σ).1 v).propogation_flag := by
    intro v hv
    rw [if_pos (List.mem_range.mpr hv), nspChangesVal_flag]
  have hInv3 : ∀ u, u < g.n → (σ u).num_predecessors = 0 →
      (σ u).propogation_flag = false ∨ u ∈ nspPushSet g σ →
      (if u ∈ List.range g.n then
          nspChangesVal ((numShortestPathsPushPass g σ).1 u)
        else (numShortestPathsPushPass g σ).1 u).propogation_flag =
        false := by
    intro u hun hp0 hcase
    have hz := hfPS0 u hun hp0
    have hcnd : ¬ (((numShortestPathsPushPass g σ).1 u).trim > 0 ∧
        ((numShortestPathsPushPass g σ).1 u).num_predecessors -
          ((numShortestPathsPushPass g σ).1 u).trim = 0) := by
      rw [htrim u hun, hz]
      omega
    rw [hflagρ u hun, if_neg hcnd, P3 u]
    rcases hcase with hflu | hups
    · by_cases hups : u ∈ nspPushSet g σ
      · rw [if_pos hups]
      · rw [if_neg hups]
        exact hflu
    · rw [if_pos hups]
  refine ⟨_, by rw [hround, P5], hclρ, ⟨hInv1, ?_, ?_, ?_⟩,
    LenOK_congr g σ _ hclρ hL⟩
  · intro v hv
    rw [dagFromSet_congr g σ _ hclρ, dagInDeg_congr g σ _ hclρ,
      hpredρ v hv, hsplit v]
    have h1 := hI2 v hv
    have h2 := hfs v hv
    omega
  · intro u hu
    rcases Finset.mem_union.mp hu with hu' | hu'
    · obtain ⟨hun, hflu, hp0, hlen⟩ := hI3 u hu'
      refine ⟨hun, hInv3 u hun hp0 (Or.inl hflu), ?_, ?_⟩
      · rw [hpredρ u hun, hp0]
        exact Nat.zero_sub _
      · rw [hclρ u]
        exact hlen
    · obtain ⟨hun, hlen, hflu, hsuccu⟩ := (mem_nspPushSet g σ u).mp hu'
      have hp0 := (hI4 u hun hflu).1
      refine ⟨hun, hInv3 u hun hp0 (Or.inr hu'), ?_, ?_⟩
      · rw [hpredρ u hun, hp0]
        exact Nat.zero_sub _
      · rw [hclρ u]
        exact hlen
  · intro v hv hfl
    rw [hflagρ v hv] at hfl
    rw [hpredρ v hv, hclρ v]
    by_cases hc : ((numShortestPathsPushPass g σ).1 v).trim > 0 ∧
        ((numShortestPathsPushPass g σ).1 v).num_predecessors -
          ((numShortestPathsPushPass g σ).1 v).trim = 0
    · obtain ⟨hc1, hc2⟩ := hc
      rw [htrim v hv] at hc1
      rw [(P4 v).2.2.2.2, htrim v hv] at hc2
      constructor
      · omega
      · obtain ⟨w, hwPS, hwm⟩ :=
          dagFromSet_pos_elim g σ (nspPushSet g σ) v (by omega)
        obtain ⟨hwn, hwlen, _, _⟩ := (mem_nspPushSet g σ w).mp hwPS
        have hml := dagMult_len g σ w v hwm
        have hb := hL1 w hwn
        rw [add32_right_one hb.1] at hml
        have := hb.2 hwlen
        omega
    · rw [if_neg hc, P3 v] at hfl
      by_cases hvPS : v ∈ nspPushSet g σ
      · rw [if_pos hvPS] at hfl
        exact absurd hfl Bool.false_ne_true
      · rw [if_neg hvPS] at hfl
        have h4 := hI4 v hv hfl
        rw [h4.1]
        exact ⟨Nat.zero_sub _, h4.2⟩

theorem nspEntry_inv (g : Graph) (σ0 : St) (h0 : NspEntry g σ0) :
    NspInv g σ0 ∅ := by
  obtain ⟨hLen, hTA, hPred, hFlag⟩ := h0
  refine ⟨hTA, fun v hv => ?_,
    fun u hu => absurd hu (Finset.not_mem_empty u), hFlag⟩
  rw [dagFromSet]
  simp [hPred v hv]

theorem nspTrace_inv (g : Graph) (σ0 : St) (h0 : NspEntry g σ0) :
    ∀ k, ∃ σk, nspStateAt g σ0 k = some σk ∧
      NspInv g σk (nspCumSet g σ0 k) ∧ LenOK g σk := by
  intro k
  induction k with
  | zero =>
    exact ⟨σ0, rfl, nspEntry_inv g σ0 h0, h0.1⟩
  | succ k ih =>
    obtain ⟨σk, hst, hinv, hlen⟩ := ih
    obtain ⟨ρ, hrnd, hclρ, hinv', hlen'⟩ := nspRound_step g σk _ hlen hinv
    refine ⟨ρ, ?_, ?_, hlen'⟩
    · show (nspStateAt g σ0 k).bind
        (fun τ => (numShortestPathsRound g τ).map Prod.fst) = some ρ
      rw [hst]
      show (numShortestPathsRound g σk).map Prod.fst = some ρ
      rw [hrnd]
      rfl
    · have hcum : nspCumSet g σ0 (k + 1) =
          nspCumSet g σ0 k ∪ nspPushSet g σk := by
        show nspCumSet g σ0 k ∪ (match nspStateAt g σ0 k with
          | some τ => nspPushSet g τ
          | none => ∅) = _
        rw [hst]
      rw [hcum]
      exact hinv'

theorem nspCumSet_mono (g : Graph) (σ0 : St) (i j : Nat) (hij : i ≤ j) :
    nspCumSet g σ0 i ⊆ nspCumSet g σ0 j := by
  induction j with
  | zero =>
    have : i = 0 := Nat.le_zero.mp hij
    subst this
    exact Finset.Subset.refl _
  | succ j ihj =>
    by_cases h : i ≤ j
    · exact (ihj h).trans Finset.subset_union_left
    · have : i = j + 1 := by omega
      subst this
      exact Finset.Subset.refl _

theorem nspPushSet_subset_cum (g : Graph) (σ0 : St) (i : Nat) (σi : St)
    (hst : nspStateAt g σ0 i = some σi) :
    nspPushSet g σi ⊆ nspCumSet g σ0 (i + 1) := by
  have hcum : nspCumSet g σ0 (i + 1) =
      nspCumSet g σ0 i ∪ nspPushSet g σi := by
    show nspCumSet g σ0 i ∪ (match nspStateAt g σ0 i with
      | some τ => nspPushSet g τ
      | none => ∅) = _
    rw [hst]
  rw [hcum]
  exact Finset.subset_union_right

theorem nspLoop_safe (g : Graph) : ∀ fuel (σ : St) (S : Finset Nat),
    LenOK g σ → NspInv g σ S →
    numShortestPathsLoop g fuel σ ≠ RunRes.assertFail := by
  intro fuel
  induction fuel with
  | zero =>
    intro σ S hL hI
    obtain ⟨ρ, hrnd, _, _, _⟩ := nspRound_step g σ S hL hI
    simp only [numShortestPathsLoop]
    rw [hrnd]
    dsimp only
    split
    · exact fun h => RunRes.noConfusion h
    · exact fun h => RunRes.noConfusion h
  | succ fuel ih =>
    intro σ S hL hI
    obtain ⟨ρ, hrnd, hclρ, hinv', hlen'⟩ := nspRound_step g σ S hL hI
    simp only [numShortestPathsLoop]
    rw [hrnd]
    dsimp only
    split
    · exact fun h => RunRes.noConfusion h
    · exact ih ρ (S ∪ nspPushSet g σ) hlen' hinv'

theorem nspPushSet_eq_claim (g : Graph) (σ : St) (S : Finset Nat)
    (hI : NspInv g σ S) : nspPushSet g σ = nspClaimSet g σ := by
  ext v
  rw [mem_nspPushSet, nspClaimSet, Finset.mem_filter, Finset.mem_range]
  simp only [nspGate]
  constructor
  · rintro ⟨hv, _, h2, h3⟩
    exact ⟨hv, h2, h3⟩
  · rintro ⟨hv, h2, h3⟩
    exact ⟨hv, (hI.2.2.2 v hv h2).2, h2, h3⟩

/-- C4: in phase 4.4 a node pushes its shortest-path count to its
DAG-successors at most once per source iteration: starting from the phase
entry state, every round of the loop processes exactly the nodes with a
raised propogation_flag and a positive successor count; each processed
node u adds dagMult-many copies of its num_shortest_paths into each
DAG-successor's to_add, adds dagMult to that successor's trim, and has its
own flag cleared by the pass; and the processed sets of two distinct
rounds are disjoint, so no node ever pushes twice. -/
theorem c4_push_once (g : Graph) (σ0 : St) (h0 : NspEntry g σ0) :
    (∀ k σ, nspStateAt g σ0 k = some σ →
      nspPushSet g σ = nspClaimSet g σ ∧
      (∀ v, ((numShortestPathsPushPass g σ).1 v).trim =
        if dagFromSet g σ (nspPushSet g σ) v = 0 then (σ v).trim
        else add32 ((σ v).trim) (dagFromSet g σ (nspPushSet g σ) v)) ∧
      (∀ v, ((numShortestPathsPushPass g σ).1 v).to_add =
        if dagFromSet g σ (nspPushSet g σ) v = 0 then (σ v).to_add
        else add32 ((σ v).to_add) (nspPushAmt g σ v)) ∧
      (∀ v, ((numShortestPathsPushPass g σ).1 v).propogation_flag =
        if v ∈ nspPushSet g σ then false else (σ v).propogation_flag)) ∧
    (∀ i j σi σj, i < j →
      nspStateAt g σ0 i = some σi → nspStateAt g σ0 j = some σj →
      Disjoint (nspPushSet g σi) (nspPushSet g σj)) := by
  constructor
  · intro k σ hst
    obtain ⟨σk, hst', hinv, hlen⟩ := nspTrace_inv g σ0 h0 k
    rw [hst] at hst'
    have heq : σ = σk := Option.some.inj hst'
    subst heq
    obtain ⟨Q1, Q2, Q3, _, _⟩ := nspPushPass_spec g σ
    exact ⟨nspPushSet_eq_claim g σ _ hinv, Q1, Q2, Q3⟩
  · intro i j σi σj hij hsti hstj
    obtain ⟨σj', hstj', hinvj, _⟩ := nspTrace_inv g σ0 h0 j
    rw [hstj] at hstj'
    have heq : σj = σj' := Option.some.inj hstj'
    subst heq
    rw [Finset.disjoint_left]
    intro u hui huj
    have h1 : u ∈ nspCumSet g σ0 j :=
      nspCumSet_mono g σ0 (i + 1) j hij
        (nspPushSet_subset_cum g σ0 i σi hsti hui)
    have h2 := (hinvj.2.2.1 u h1).2.1
    have h3 := ((mem_nspPushSet g σj u).mp huj).2.2.1
    rw [h2] at h3
    exact Bool.false_ne_true h3

/-- Concrete instance of C4: the phase-4.4 entry state of the path graph
0 -> 1 -> 2 -> 3 with source 0 satisfies the entry conditions, and the
push-once guarantees follow by the theorem. -/
theorem c4_push_once_witness :
    NspEntry pathGraph4 nspEntryDemo ∧
    ((∀ k σ, nspStateAt pathGraph4 nspEntryDemo k = some σ →
      nspPushSet pathGraph4 σ = nspClaimSet pathGraph4 σ ∧
      (∀ v, ((numShortestPathsPushPass pathGraph4 σ).1 v).trim =
        if dagFromSet pathGraph4 σ (nspPushSet pathGraph4 σ) v = 0 then
          (σ v).trim
        else add32 ((σ v).trim)
          (dagFromSet pathGraph4 σ (nspPushSet pathGraph4 σ) v)) ∧
      (∀ v, ((numShortestPathsPushPass pathGraph4 σ).1 v).to_add =
        if dagFromSet pathGraph4 σ (nspPushSet pathGraph4 σ) v = 0 then
          (σ v).to_add
        else add32 ((σ v).to_add) (nspPushAmt pathGraph4 σ v)) ∧
      (∀ v, ((numShortestPathsPushPass pathGraph4 σ).1 v).propogation_flag =
        if v ∈ nspPushSet pathGraph4 σ then false
        else (σ v).propogation_flag)) ∧
    (∀ i j σi σj, i < j →
      nspStateAt pathGraph4 nspEntryDemo i = some σi →
      nspStateAt pathGraph4 nspEntryDemo j = some σj →
      Disjoint (nspPushSet pathGraph4 σi) (nspPushSet pathGraph4 σj))) :=
  ⟨by decide, c4_push_once pathGraph4 nspEntryDemo (by decide)⟩

theorem depScanEdge_skip (g : Graph) (u : Nat) (y : St × Nat) (dst : Nat)
    (h : ¬ ((y.1 dst).propogation_flag = true ∧
      add32 ((y.1 u).current_length) 1 = (y.1 dst).current_length)) :
    depScanEdge g u y dst = y := by
  unfold depScanEdge
  by_cases h1 : (y.1 dst).propogation_flag = true
  · rw [if_pos h1, if_neg (fun h2 => h ⟨h1, h2⟩)]
  · rw [if_neg h1]

theorem depScanEdge_true (g : Graph) (u : Nat) (y : St × Nat) (dst : Nat)
    (h1 : (y.1 dst).propogation_flag = true)
    (h2 : add32 ((y.1 u).current_length) 1 = (y.1 dst).current_length) :
    depScanEdge g u y dst =
      (updNode y.1 u { y.1 u with
          trim := add32 ((y.1 u).trim) 1,
          to_add_float := (y.1 u).to_add_float +
            (((y.1 u).num_shortest_paths : Rat) /
              ((y.1 dst).num_shortest_paths : Rat)) *
              (1 + (y.1 dst).dependency) }, y.2 + 1) := by
  unfold depScanEdge
  rw [if_pos h1, if_pos h2]
  by_cases hdu : dst = u
  · subst hdu
    simp only [updNode_updNode_same, updNode_self]
  · simp only [updNode_updNode_same, updNode_self,
      updNode_ne _ _ _ _ hdu]

theorem depScanEdge_true_fields (g : Graph) (u : Nat) (y : St × Nat)
    (dst : Nat) (h1 : (y.1 dst).propogation_flag = true)
    (h2 : add32 ((y.1 u).current_length) 1 = (y.1 dst).current_length) :
    (∀ w, w ≠ u → (depScanEdge g u y dst).1 w = y.1 w) ∧
    ((depScanEdge g u y dst).1 u).trim = add32 ((y.1 u).trim) 1 ∧
    ((depScanEdge g u y dst).1 u).to_add_float =
      (y.1 u).to_add_float +
        (((y.1 u).num_shortest_paths : Rat) /
          ((y.1 dst).num_shortest_paths : Rat)) *
          (1 + (y.1 dst).dependency) ∧
    (((depScanEdge g u y dst).1 u).current_length =
        (y.1 u).current_length ∧
      ((depScanEdge g u y dst).1 u).old_length = (y.1 u).old_length ∧
      ((depScanEdge g u y dst).1 u).num_shortest_paths =
        (y.1 u).num_shortest_paths ∧
      ((depScanEdge g u y dst).1 u).num_successors =
        (y.1 u).num_successors ∧
      ((depScanEdge g u y dst).1 u).num_predecessors =
        (y.1 u).num_predecessors ∧
      ((depScanEdge g u y dst).1 u).dependency = (y.1 u).dependency ∧
      ((depScanEdge g u y dst).1 u).propogation_flag =
        (y.1 u).propogation_flag) ∧
    (depScanEdge g u y dst).2 = y.2 + 1 := by
  rw [depScanEdge_true g u y dst h1 h2]
  refine ⟨fun w hw => ?_, ?_, ?_, ⟨?_, ?_, ?_, ?_, ?_, ?_, ?_⟩, rfl⟩
  · exact updNode_ne _ _ _ _ hw
  all_goals simp only [updNode_self]

theorem depListCnt_cons_pos (σ : St) (u dst : Nat) (E : List Nat)
    (h : (σ dst).propogation_flag = true ∧
      add32 ((σ u).current_length) 1 = (σ dst).current_length) :
    depListCnt σ u (dst :: E) = depListCnt σ u E + 1 := by
  rw [depListCnt, depListCnt, List.filter_cons]
  simp [h.1, h.2]

theorem depListCnt_cons_neg (σ : St) (u dst : Nat) (E : List Nat)
    (h : ¬ ((σ dst).propogation_flag = true ∧
      add32 ((σ u).current_length) 1 = (σ dst).current_length)) :
    depListCnt σ u (dst :: E) = depListCnt σ u E := by
  rw [depListCnt, depListCnt, List.filter_cons]
  simp [h]

theorem depListTaf_cons_pos (σ : St) (u dst : Nat) (E : List Nat)
    (h : (σ dst).propogation_flag = true ∧
      add32 ((σ u).current_length) 1 = (σ dst).current_length) :
    depListTaf σ u (dst :: E) =
      (((σ u).num_shortest_paths : Rat) /
        ((σ dst).num_shortest_paths : Rat)) * (1 + (σ dst).dependency) +
      depListTaf σ u E := by
  rw [depListTaf, depListTaf, List.filter_cons]
  simp [h.1, h.2]

theorem depListTaf_cons_neg (σ : St) (u dst : Nat) (E : List Nat)
    (h : ¬ ((σ dst).propogation_flag = true ∧
      add32 ((σ u).current_length) 1 = (σ dst).current_length)) :
    depListTaf σ u (dst :: E) = depListTaf σ u E := by
  rw [depListTaf, depListTaf, List.filter_cons]
  simp [h]

theorem depList_congr (σ τ : St) (u : Nat) (E : List Nat)
    (hcl : ∀ w, (τ w).current_length = (σ w).current_length)
    (hfl : ∀ w, (τ w).propogation_flag = (σ w).propogation_flag)
    (hnsp : ∀ w, (τ w).num_shortest_paths = (σ w).num_shortest_paths)
    (hdep : ∀ w, (τ w).dependency = (σ w).dependency) :
    depListCnt τ u E = depListCnt σ u E ∧
    depListTaf τ u E = depListTaf σ u E := by
  have hfil : E.filter (fun v => decide ((τ v).propogation_flag = true ∧
      add32 ((τ u).current_length) 1 = (τ v).current_length)) =
    E.filter (fun v => decide ((σ v).propogation_flag = true ∧
      add32 ((σ u).current_length) 1 = (σ v).current_length)) := by
    apply List.filter_congr
    intro w _
    rw [hfl w, hcl u, hcl w]
  constructor
  · rw [depListCnt, depListCnt, hfil]
  · rw [depListTaf, depListTaf, hfil]
    congr 1
    apply List.map_congr_left
    intro w _
    rw [hnsp u, hnsp w, hdep w]

theorem depScanEdges_fold (g : Graph) (u : Nat) (E : List Nat) (y : St × Nat) :
    (∀ w, w ≠ u → ((E.foldl (depScanEdge g u) y).1 w) = y.1 w) ∧
    ((E.foldl (depScanEdge g u) y).1 u).trim =
      (if depListCnt y.1 u E = 0 then (y.1 u).trim
        else add32 ((y.1 u).trim) (depListCnt y.1 u E)) ∧
    ((E.foldl (depScanEdge g u) y).1 u).to_add_float =
      (y.1 u).to_add_float + depListTaf y.1 u E ∧
    (((E.foldl (depScanEdge g u) y).1 u).current_length =
        (y.1 u).current_length ∧
      ((E.foldl (depScanEdge g u) y).1 u).old_length = (y.1 u).old_length ∧
      ((E.foldl (depScanEdge g u) y).1 u).num_shortest_paths =
        (y.1 u).num_shortest_paths ∧
      ((E.foldl (depScanEdge g u) y).1 u).num_successors =
        (y.1 u).num_successors ∧
      ((E.foldl (depScanEdge g u) y).1 u).num_predecessors =
        (y.1 u).num_predecessors ∧
      ((E.foldl (depScanEdge g u) y).1 u).dependency = (y.1 u).dependency ∧
      ((E.foldl (depScanEdge g u) y).1 u).propogation_flag =
        (y.1 u).propogation_flag) ∧
    (E.foldl (depScanEdge g u) y).2 = y.2 + depListCnt y.1 u E := by
  induction E generalizing y with
  | nil =>
    simp [depListCnt, depListTaf]
  | cons dst E' ih =>
    rw [List.foldl_cons]
    by_cases hcond : (y.1 dst).propogation_flag = true ∧
        add32 ((y.1 u).current_length) 1 = (y.1 dst).current_length
    · obtain ⟨F1, F2, F3, F4, F5⟩ :=
        depScanEdge_true_fields g u y dst hcond.1 hcond.2
      obtain ⟨hFcl, hFol, hFnsp, hFsucc, hFpred, hFdep, hFfl⟩ := F4
      have hcl : ∀ w, ((depScanEdge g u y dst).1 w).current_length =
          (y.1 w).current_length := by
        intro w
        by_cases hw : w = u
        · subst hw
          exact hFcl
        · rw [F1 w hw]
      have hfl : ∀ w, ((depScanEdge g u y dst).1 w).propogation_flag =
          (y.1 w).propogation_flag := by
        intro w
        by_cases hw : w = u
        · subst hw
          exact hFfl
        · rw [F1 w hw]
      have hnsp : ∀ w, ((depScanEdge g u y dst).1 w).num_shortest_paths =
          (y.1 w).num_shortest_paths := by
        intro w
        by_cases hw : w = u
        · subst hw
          exact hFnsp
        · rw [F1 w hw]
      have hdep : ∀ w, ((depScanEdge g u y dst).1 w).dependency =
          (y.1 w).dependency := by
        intro w
        by_cases hw : w = u
        · subst hw
          exact hFdep
        · rw [F1 w hw]
      obtain ⟨hC, hT⟩ :=
        depList_congr y.1 (depScanEdge g u y dst).1 u E' hcl hfl hnsp hdep
      obtain ⟨I1, I2, I3, I4, I5⟩ := ih (depScanEdge g u y dst)
      refine ⟨fun w hw => (I1 w hw).trans (F1 w hw), ?_, ?_,
        ⟨(I4.1).trans hFcl, (I4.2.1).trans hFol, (I4.2.2.1).trans hFnsp,
          (I4.2.2.2.1).trans hFsucc, (I4.2.2.2.2.1).trans hFpred,
          (I4.2.2.2.2.2.1).trans hFdep, (I4.2.2.2.2.2.2).trans hFfl⟩, ?_⟩
      · rw [I2, hC, F2, depListCnt_cons_pos y.1 u dst E' hcond]
        by_cases h0 : depListCnt y.1 u E' = 0 <;>
          simp [h0, add32_add32, Nat.add_comm]
      · rw [I3, hT, F3, depListTaf_cons_pos y.1 u dst E' hcond, add_assoc]
      · rw [I5, hC, F5, depListCnt_cons_pos y.1 u dst E' hcond]
        omega
    · rw [depScanEdge_skip g u y dst hcond]
      obtain ⟨I1, I2, I3, I4, I5⟩ := ih y
      refine ⟨I1, ?_, ?_, I4, ?_⟩
      · rw [depListCnt_cons_neg y.1 u dst E' hcond]
        exact I2
      · rw [depListTaf_cons_neg y.1 u dst E' hcond]
        exact I3
      · rw [depListCnt_cons_neg y.1 u dst E' hcond]
        exact I5

theorem depListCnt_adj (g : Graph) (σ : St) (u : Nat) :
    depListCnt σ u (g.adj u) = depScanCount g σ u := rfl

theorem depListTaf_adj (g : Graph) (σ : St) (u : Nat) :
    depListTaf σ u (g.adj u) = depScanAmt g σ u := rfl

theorem dependencyPropogationNode_scan (g : Graph) (s : Nat) (x : St × Nat)
    (u : Nat) (h : depGate s x.1 u) :
    dependencyPropogationNode g s x u =
      (g.adj u).foldl (depScanEdge g u) x := by
  unfold dependencyPropogationNode
  rw [if_pos h.1, if_pos h.2.1, if_pos h.2.2]

theorem dependencyPropogationNode_src (g : Graph) (s : Nat) (x : St × Nat)
    (u : Nat) (h : depSrcGate s x.1 u) :
    dependencyPropogationNode g s x u =
      (updNode x.1 u { x.1 u with num_successors := 0 }, x.2) := by
  unfold dependencyPropogationNode
  have hne : ¬ (u ≠ s) := fun hne => hne h.2.2
  rw [if_pos h.1, if_pos h.2.1, if_neg hne]

theorem dependencyPropogationNode_skip (g : Graph) (s : Nat) (x : St × Nat)
    (u : Nat) (h1 : ¬ depGate s x.1 u) (h2 : ¬ depSrcGate s x.1 u) :
    dependencyPropogationNode g s x u = x := by
  unfold dependencyPropogationNode
  by_cases hcl : (x.1 u).current_length ≠ infinity
  · rw [if_pos hcl]
    by_cases hsucc : (x.1 u).num_successors > 0
    · exfalso
      by_cases hus : u = s
      · exact h2 ⟨hcl, hsucc, hus⟩
      · exact h1 ⟨hcl, hsucc, hus⟩
    · rw [if_neg hsucc]
  · rw [if_neg hcl]

theorem depScanNodes_fold (g : Graph) (s : Nat) (L : List Nat) (x : St × Nat)
    (hnd : L.Nodup) :
    (∀ w, ((L.foldl (dependencyPropogationNode g s) x).1 w).trim =
      if w ∈ L ∧ depGate s x.1 w then
        (if depScanCount g x.1 w = 0 then (x.1 w).trim
          else add32 ((x.1 w).trim) (depScanCount g x.1 w))
      else (x.1 w).trim) ∧
    (∀ w, ((L.foldl (dependencyPropogationNode g s) x).1 w).to_add_float =
      if w ∈ L ∧ depGate s x.1 w then
        (x.1 w).to_add_float + depScanAmt g x.1 w
      else (x.1 w).to_add_float) ∧
    (∀ w, ((L.foldl (dependencyPropogationNode g s) x).1 w).num_successors =
      if w ∈ L ∧ depSrcGate s x.1 w then 0
      else (x.1 w).num_successors) ∧
    (∀ w,
      ((L.foldl (dependencyPropogationNode g s) x).1 w).current_length =
        (x.1 w).current_length ∧
      ((L.foldl (dependencyPropogationNode g s) x).1 w).old_length =
        (x.1 w).old_length ∧
      ((L.foldl (dependencyPropogationNode g s) x).1 w).num_shortest_paths =
        (x.1 w).num_shortest_paths ∧
      ((L.foldl (dependencyPropogationNode g s) x).1 w).num_predecessors =
        (x.1 w).num_predecessors ∧
      ((L.foldl (dependencyPropogationNode g s) x).1 w).dependency =
        (x.1 w).dependency ∧
      ((L.foldl (dependencyPropogationNode g s) x).1 w).propogation_flag =
        (x.1 w).propogation_flag) := by
  induction L generalizing x with
  | nil =>
    simp
  | cons u T ih =>
    obtain ⟨hu, hT⟩ := List.nodup_cons.mp hnd
    rw [List.foldl_cons]
    by_cases hg : depGate s x.1 u
    · rw [dependencyPropogationNode_scan g s x u hg]
      obtain ⟨F1, F2, F3, F4, F5⟩ := depScanEdges_fold g u (g.adj u) x
      simp only [depListCnt_adj, depListTaf_adj] at F2 F3 F5
      obtain ⟨hFcl, hFol, hFnsp, hFsucc, hFpred, hFdep, hFfl⟩ := F4
      have hcl : ∀ w,
          (((g.adj u).foldl (depScanEdge g u) x).1 w).current_length =
          (x.1 w).current_length := by
        intro w
        by_cases hw : w = u
        · subst hw
          exact hFcl
        · rw [F1 w hw]
      have hfl : ∀ w,
          (((g.adj u).foldl (depScanEdge g u) x).1 w).propogation_flag =
          (x.1 w).propogation_flag := by
        intro w
        by_cases hw : w = u
        · subst hw
          exact hFfl
        · rw [F1 w hw]
      have hnsp : ∀ w,
          (((g.adj u).foldl (depScanEdge g u) x).1 w).num_shortest_paths =
          (x.1 w).num_shortest_paths := by
        intro w
        by_cases hw : w = u
        · subst hw
          exact hFnsp
        · rw [F1 w hw]
      have hdep : ∀ w,
          (((g.adj u).foldl (depScanEdge g u) x).1 w).dependency =
          (x.1 w).dependency := by
        intro w
        by_cases hw : w = u
        · subst hw
          exact hFdep
        · rw [F1 w hw]
      have hsucc : ∀ w,
          (((g.adj u).foldl (depScanEdge g u) x).1 w).num_successors =
          (x.1 w).num_successors := by
        intro w
        by_cases hw : w = u
        · subst hw
          exact hFsucc
        · rw [F1 w hw]
      have hol : ∀ w,
          (((g.adj u).foldl (depScanEdge g u) x).1 w).old_length =
          (x.1 w).old_length := by
        intro w
        by_cases hw : w = u
        · subst hw
          exact hFol
        · rw [F1 w hw]
      have hpred : ∀ w,
          (((g.adj u).foldl (depScanEdge g u) x).1 w).num_predecessors =
          (x.1 w).num_predecessors := by
        intro w
        by_cases hw : w = u
        · subst hw
          exact hFpred
        · rw [F1 w hw]
      have hcong := fun w =>
        depList_congr x.1 ((g.adj u).foldl (depScanEdge g u) x).1 w
          (g.adj w) hcl hfl hnsp hdep
      have hCnt : ∀ w,
          depScanCount g (((g.adj u).foldl (depScanEdge g u) x).1) w =
          depScanCount g x.1 w := fun w => (hcong w).1
      have hAmt : ∀ w,
          depScanAmt g (((g.adj u).foldl (depScanEdge g u) x).1) w =
          depScanAmt g x.1 w := fun w => (hcong w).2
      have hgate : ∀ w,
          depGate s (((g.adj u).foldl (depScanEdge g u) x).1) w ↔
          depGate s x.1 w := by
        intro w
        rw [depGate, depGate, hcl w, hsucc w]
      have hsrc : ∀ w,
          depSrcGate s (((g.adj u).foldl (depScanEdge g u) x).1) w ↔
          depSrcGate s x.1 w := by
        intro w
        rw [depSrcGate, depSrcGate, hcl w, hsucc w]
      obtain ⟨I1, I2, I3, I4⟩ := ih ((g.adj u).foldl (depScanEdge g u) x) hT
      have husrc : ¬ depSrcGate s x.1 u := fun h => hg.2.2 h.2.2
      refine ⟨fun w => ?_, fun w => ?_, fun w => ?_, fun w => ?_⟩
      · rw [I1 w]
        by_cases hw : w = u
        · subst hw
          rw [if_neg (fun h => hu h.1),
            if_pos ⟨List.mem_cons_self _ _, hg⟩, F2]
        · by_cases hwT : w ∈ T
          · by_cases hgw : depGate s x.1 w
            · have hA : w ∈ T ∧
                  depGate s (((g.adj u).foldl (depScanEdge g u) x).1) w :=
                ⟨hwT, (hgate w).mpr hgw⟩
              have hX : w ∈ u :: T ∧ depGate s x.1 w :=
                ⟨List.mem_cons_of_mem u hwT, hgw⟩
              rw [if_pos hA, if_pos hX, hCnt w, F1 w hw]
            · rw [if_neg (fun h => hgw ((hgate w).mp h.2)), F1 w hw,
                if_neg (fun h => hgw h.2)]
          · rw [if_neg (fun h => hwT h.1), F1 w hw,
              if_neg (fun h => (List.mem_cons.mp h.1).elim hw hwT)]
      · rw [I2 w]
        by_cases hw : w = u
        · subst hw
          rw [if_neg (fun h => hu h.1), F3,
            if_pos ⟨List.mem_cons_self _ _, hg⟩]
        · by_cases hwT : w ∈ T
          · by_cases hgw : depGate s x.1 w
            · rw [if_pos ⟨hwT, (hgate w).mpr hgw⟩, hAmt w, F1 w hw,
                if_pos ⟨List.mem_cons_of_mem u hwT, hgw⟩]
            · rw [if_neg (fun h => hgw ((hgate w).mp h.2)), F1 w hw,
                if_neg (fun h => hgw h.2)]
          · rw [if_neg (fun h => hwT h.1), F1 w hw,
              if_neg (fun h => (List.mem_cons.mp h.1).elim hw hwT)]
      · rw [I3 w]
        by_cases hw : w = u
        · subst hw
          rw [if_neg (fun h => hu h.1), hFsucc,
            if_neg (fun h => husrc h.2)]
        · by_cases hwT : w ∈ T
          · by_cases hgw : depSrcGate s x.1 w
            · rw [if_pos ⟨hwT, (hsrc w).mpr hgw⟩,
                if_pos ⟨List.mem_cons_of_mem u hwT, hgw⟩]
            · rw [if_neg (fun h => hgw ((hsrc w).mp h.2)), hsucc w,
                if_neg (fun h => hgw h.2)]
          · rw [if_neg (fun h => hwT h.1), hsucc w,
              if_neg (fun h => (List.mem_cons.mp h.1).elim hw hwT)]
      · exact ⟨((I4 w).1).trans (hcl w), ((I4 w).2.1).trans (hol w),
          ((I4 w).2.2.1).trans (hnsp w), ((I4 w).2.2.2.1).trans (hpred w),
          ((I4 w).2.2.2.2.1).trans (hdep w),
          ((I4 w).2.2.2.2.2).trans (hfl w)⟩
    · by_cases hs : depSrcGate s x.1 u
      · rw [dependencyPropogationNode_src g s x u hs]
        have hframe : ∀ w, w ≠ u →
            (updNode x.1 u { x.1 u with num_successors := 0 }) w =
            x.1 w := fun w hw => updNode_ne _ _ _ _ hw
        have hself : (updNode x.1 u
            { x.1 u with num_successors := 0 }) u =
            { x.1 u with num_successors := 0 } := updNode_self _ _ _
        have hcl : ∀ w,
            ((updNode x.1 u { x.1 u with num_successors := 0 }) w
              ).current_length = (x.1 w).current_length := by
          intro w
          by_cases hw : w = u
          · subst hw
            exact (congrArg NodeData.current_length hself).trans rfl
          · rw [hframe w hw]
        have hfl : ∀ w,
            ((updNode x.1 u { x.1 u with num_successors := 0 }) w
              ).propogation_flag = (x.1 w).propogation_flag := by
          intro w
          by_cases hw : w = u
          · subst hw
            exact (congrArg NodeData.propogation_flag hself).trans rfl
          · rw [hframe w hw]
        have hnsp : ∀ w,
            ((updNode x.1 u { x.1 u with num_successors := 0 }) w
              ).num_shortest_paths = (x.1 w).num_shortest_paths := by
          intro w
          by_cases hw : w = u
          · subst hw
            exact (congrArg NodeData.num_shortest_paths hself).trans rfl
          · rw [hframe w hw]
        have hdep : ∀ w,
            ((updNode x.1 u { x.1 u with num_successors := 0 }) w
              ).dependency = (x.1 w).dependency := by
          intro w
          by_cases hw : w = u
          · subst hw
            exact (congrArg NodeData.dependency hself).trans rfl
          · rw [hframe w hw]
        have hol : ∀ w,
            ((updNode x.1 u { x.1 u with num_successors := 0 }) w
              ).old_length = (x.1 w).old_length := by
          intro w
          by_cases hw : w = u
          · subst hw
            exact (congrArg NodeData.old_length hself).trans rfl
          · rw [hframe w hw]
        have hpred : ∀ w,
            ((updNode x.1 u { x.1 u with num_successors := 0 }) w
              ).num_predecessors = (x.1 w).num_predecessors := by
          intro w
          by_cases hw : w = u
          · subst hw
            exact (congrArg NodeData.num_predecessors hself).trans rfl
          · rw [hframe w hw]
        have htrim : ∀ w,
            ((updNode x.1 u { x.1 u with num_successors := 0 }) w
              ).trim = (x.1 w).trim := by
          intro w
          by_cases hw : w = u
          · subst hw
            exact (congrArg NodeData.trim hself).trans rfl
          · rw [hframe w hw]
        have htaf : ∀ w,
            ((updNode x.1 u { x.1 u with num_successors := 0 }) w
              ).to_add_float = (x.1 w).to_add_float := by
          intro w
          by_cases hw : w = u
          · subst hw
            exact (congrArg NodeData.to_add_float hself).trans rfl
          · rw [hframe w hw]
        have hsucc : ∀ w, w ≠ u →
            ((updNode x.1 u { x.1 u with num_successors := 0 }) w
              ).num_successors = (x.1 w).num_successors := by
          intro w hw
          rw [hframe w hw]
        have hsuccu : ((updNode x.1 u
            { x.1 u with num_successors := 0 }) u).num_successors = 0 :=
          (congrArg NodeData.num_successors hself).trans rfl
        have hcong := fun w =>
          depList_congr x.1
            (updNode x.1 u { x.1 u with num_successors := 0 }) w
            (g.adj w) hcl hfl hnsp hdep
        have hCnt : ∀ w, depScanCount g
            (updNode x.1 u { x.1 u with num_successors := 0 }) w =
            depScanCount g x.1 w := fun w => (hcong w).1
        have hAmt : ∀ w, depScanAmt g
            (updNode x.1 u { x.1 u with num_successors := 0 }) w =
            depScanAmt g x.1 w := fun w => (hcong w).2
        have hgate : ∀ w, w ≠ u →
            (depGate s (updNode x.1 u
              { x.1 u with num_successors := 0 }) w ↔
            depGate s x.1 w) := by
          intro w hw
          rw [depGate, depGate, hcl w, hsucc w hw]
        have hsrcg : ∀ w, w ≠ u →
            (depSrcGate s (updNode x.1 u
              { x.1 u with num_successors := 0 }) w ↔
            depSrcGate s x.1 w) := by
          intro w hw
          rw [depSrcGate, depSrcGate, hcl w, hsucc w hw]
        obtain ⟨I1, I2, I3, I4⟩ :=
          ih (updNode x.1 u { x.1 u with num_successors := 0 }, x.2) hT
        refine ⟨fun w => ?_, fun w => ?_, fun w => ?_, fun w => ?_⟩
        · rw [I1 w]
          by_cases hw : w = u
          · subst hw
            rw [if_neg (fun h => hu h.1), htrim w,
              if_neg (fun h => hg h.2)]
          · by_cases hwT : w ∈ T
            · by_cases hgw : depGate s x.1 w
              · have hA : w ∈ T ∧ depGate s
                    (updNode x.1 u { x.1 u with num_successors := 0 }) w :=
                  ⟨hwT, (hgate w hw).mpr hgw⟩
                have hX : w ∈ u :: T ∧ depGate s x.1 w :=
                  ⟨List.mem_cons_of_mem u hwT, hgw⟩
                rw [if_pos hA, if_pos hX, hCnt w, htrim w]
              · rw [if_neg (fun h => hgw ((hgate w hw).mp h.2)), htrim w,
                  if_neg (fun h => hgw h.2)]
            · rw [if_neg (fun h => hwT h.1), htrim w,
                if_neg (fun h => (List.mem_cons.mp h.1).elim hw hwT)]
        · rw [I2 w]
          by_cases hw : w = u
          · subst hw
            rw [if_neg (fun h => hu h.1), htaf w,
              if_neg (fun h => hg h.2)]
          · by_cases hwT : w ∈ T
            · by_cases hgw : depGate s x.1 w
              · rw [if_pos ⟨hwT, (hgate w hw).mpr hgw⟩, hAmt w, htaf w,
                  if_pos ⟨List.mem_cons_of_mem u hwT, hgw⟩]
              · rw [if_neg (fun h => hgw ((hgate w hw).mp h.2)), htaf w,
                  if_neg (fun h => hgw h.2)]
            · rw [if_neg (fun h => hwT h.1), htaf w,
                if_neg (fun h => (List.mem_cons.mp h.1).elim hw hwT)]
        · rw [I3 w]
          by_cases hw : w = u
          · subst hw
            rw [if_neg (fun h => hu h.1), hsuccu,
              if_pos ⟨List.mem_cons_self _ _, hs⟩]
          · by_cases hwT : w ∈ T
            · by_cases hgw : depSrcGate s x.1 w
              · rw [if_pos ⟨hwT, (hsrcg w hw).mpr hgw⟩,
                  if_pos ⟨List.mem_cons_of_mem u hwT, hgw⟩]
              · rw [if_neg (fun h => hgw ((hsrcg w hw).mp h.2)),
                  hsucc w hw, if_neg (fun h => hgw h.2)]
            · rw [if_neg (fun h => hwT h.1), hsucc w hw,
                if_neg (fun h => (List.mem_cons.mp h.1).elim hw hwT)]
        · exact ⟨((I4 w).1).trans (hcl w), ((I4 w).2.1).trans (hol w),
            ((I4 w).2.2.1).trans (hnsp w),
            ((I4 w).2.2.2.1).trans (hpred w),
            ((I4 w).2.2.2.2.1).trans (hdep w),
            ((I4 w).2.2.2.2.2).trans (hfl w)⟩
      · rw [dependencyPropogationNode_skip g s x u hg hs]
        obtain ⟨I1, I2, I3, I4⟩ := ih x hT
        refine ⟨fun w => ?_, fun w => ?_, fun w => ?_, I4⟩
        · rw [I1 w]
          by_cases hw : w = u
          · subst hw
            rw [if_neg (fun h => hu h.1), if_neg (fun h => hg h.2)]
          · by_cases hwT : w ∈ T
            · by_cases hgw : depGate s x.1 w
              · have hX : w ∈ u :: T ∧ depGate s x.1 w :=
                  ⟨List.mem_cons_of_mem u hwT, hgw⟩
                rw [if_pos ⟨hwT, hgw⟩, if_pos hX]
              · rw [if_neg (fun h => hgw h.2), if_neg (fun h => hgw h.2)]
            · rw [if_neg (fun h => hwT h.1),
                if_neg (fun h => (List.mem_cons.mp h.1).elim hw hwT)]
        · rw [I2 w]
          by_cases hw : w = u
          · subst hw
            rw [if_neg (fun h => hu h.1), if_neg (fun h => hg h.2)]
          · by_cases hwT : w ∈ T
            · by_cases hgw : depGate s x.1 w
              · rw [if_pos ⟨hwT, hgw⟩,
                  if_pos ⟨List.mem_cons_of_mem u hwT, hgw⟩]
              · rw [if_neg (fun h => hgw h.2), if_neg (fun h => hgw h.2)]
            · rw [if_neg (fun h => hwT h.1),
                if_neg (fun h => (List.mem_cons.mp h.1).elim hw hwT)]
        · rw [I3 w]
          by_cases hw : w = u
          · subst hw
            rw [if_neg (fun h => hu h.1), if_neg (fun h => hs h.2)]
          · by_cases hwT : w ∈ T
            · by_cases hgw : depSrcGate s x.1 w
              · rw [if_pos ⟨hwT, hgw⟩,
                  if_pos ⟨List.mem_cons_of_mem u hwT, hgw⟩]
              · rw [if_neg (fun h => hgw h.2), if_neg (fun h => hgw h.2)]
            · rw [if_neg (fun h => hwT h.1),
                if_neg (fun h => (List.mem_cons.mp h.1).elim hw hwT)]

theorem depChangesNode_eq_some (d : NodeData) (h : depChangesOk d) :
    dependencyPropChangesNode d = some (depChangesVal d) := by
  by_cases hcl : d.current_length ≠ infinity
  · obtain ⟨hA, hB⟩ := h hcl
    by_cases hsf : d.num_successors = 0 ∧ d.propogation_flag = true
    · have ht0 := hA hsf
      by_cases hta : d.to_add_float > 0 <;>
        simp [dependencyPropChangesNode, depChangesVal, hcl, hsf.1,
          hsf.2, hta, ht0]
    · by_cases ht : d.trim > 0
      · obtain ⟨hle, hflz⟩ := hB hsf ht
        by_cases hz : d.num_successors - d.trim = 0
        · have hf := hflz hz
          by_cases hta : d.to_add_float > 0 <;>
            simp [dependencyPropChangesNode, depChangesVal, hcl, hsf,
              hta, ht, hle, hz, hf]
        · by_cases hta : d.to_add_float > 0 <;>
            simp [dependencyPropChangesNode, depChangesVal, hcl, hsf,
              hta, ht, hle, hz]
      · by_cases hta : d.to_add_float > 0 <;>
          simp [dependencyPropChangesNode, depChangesVal, hcl, hsf, hta, ht]
  · simp [dependencyPropChangesNode, depChangesVal, hcl]

theorem depChangesVal_cl (d : NodeData) :
    (depChangesVal d).current_length = d.current_length := by
  rw [depChangesVal]
  by_cases hcl : d.current_length ≠ infinity
  · by_cases hta : d.to_add_float > 0 <;>
      by_cases hsf : d.num_successors = 0 ∧ d.propogation_flag = true <;>
      by_cases ht : d.trim > 0 <;>
      by_cases hz : d.num_successors - d.trim = 0 <;>
      simp [hcl, hta, hsf, ht, hz]
  · simp [hcl]

theorem depChangesVal_inf (d : NodeData)
    (hcl : d.current_length = infinity) : depChangesVal d = d := by
  rw [depChangesVal]
  simp [hcl]

theorem depChangesVal_consumed (d : NodeData)
    (hcl : d.current_length ≠ infinity) (hs0 : d.num_successors = 0)
    (hfl : d.propogation_flag = true) :
    (depChangesVal d).propogation_flag = false ∧
    (depChangesVal d).num_successors = 0 ∧
    (depChangesVal d).trim = d.trim := by
  rw [depChangesVal]
  by_cases hta : d.to_add_float > 0 <;> simp [hcl, hta, hs0, hfl]

theorem depChangesVal_apply (d : NodeData)
    (hcl : d.current_length ≠ infinity)
    (hsf : ¬ (d.num_successors = 0 ∧ d.propogation_flag = true))
    (ht : d.trim > 0) :
    (depChangesVal d).num_successors = d.num_successors - d.trim ∧
    (depChangesVal d).trim = 0 ∧
    (depChangesVal d).propogation_flag =
      (if d.num_successors - d.trim = 0 then true
        else d.propogation_flag) := by
  rw [depChangesVal]
  by_cases hta : d.to_add_float > 0 <;>
    by_cases hz : d.num_successors - d.trim = 0 <;>
    simp [hcl, hta, hsf, ht, hz]

theorem depChangesVal_idle (d : NodeData)
    (hcl : d.current_length ≠ infinity)
    (hsf : ¬ (d.num_successors = 0 ∧ d.propogation_flag = true))
    (ht : d.trim = 0) :
    (depChangesVal d).num_successors = d.num_successors ∧
    (depChangesVal d).trim = 0 ∧
    (depChangesVal d).propogation_flag = d.propogation_flag := by
  rw [depChangesVal]
  have ht' : ¬ d.trim > 0 := by omega
  by_cases hta : d.to_add_float > 0 <;> simp [hcl, hta, hsf, ht, ht']

theorem depChanges_spec (g : Graph) (σ : St)
    (hok : ∀ u, u < g.n → depChangesOk (σ u)) :
    dependencyPropChanges g σ =
      some (fun v => if v ∈ List.range g.n then depChangesVal (σ v)
        else σ v) := by
  rw [dependencyPropChanges, doAllOpt]
  exact foldlOpt_pointwise dependencyPropChangesNode depChangesVal
    (List.range g.n) (List.nodup_range g.n) σ
    (fun u hu => depChangesNode_eq_some (σ u) (hok u (List.mem_range.mp hu)))

theorem list_length_eq_sum_count (E : List Nat) (n : Nat)
    (hE : ∀ v ∈ E, v < n) :
    E.length = ∑ v ∈ Finset.range n, E.count v := by
  induction E with
  | nil => simp
  | cons a T ihT =>
    have ha : a < n := hE a (List.mem_cons_self _ _)
    have hT : ∀ v ∈ T, v < n := fun v hv => hE v (List.mem_cons_of_mem a hv)
    rw [List.length_cons, ihT hT]
    have hcnt : ∀ v, (a :: T).count v = T.count v + if v = a then 1 else 0 := by
      intro v
      rw [List.count_cons]
      by_cases hv : v = a
      · simp [hv]
      · simp [hv]
        omega
    rw [Finset.sum_congr rfl (fun v _ => hcnt v), Finset.sum_add_distrib,
      Finset.sum_ite_eq', if_pos (Finset.mem_range.mpr ha)]

theorem dagOutDeg_eq_sum (g : Graph) (σ : St) (u : Nat)
    (hadj : ∀ v ∈ g.adj u, v < g.n) :
    dagOutDeg g σ u = ∑ v ∈ Finset.range g.n, dagMult g σ u v := by
  rw [dagOutDeg,
    list_length_eq_sum_count ((g.adj u).filter _) g.n
      (fun v hv => hadj v (List.mem_of_mem_filter hv))]
  apply Finset.sum_congr rfl
  intro v _
  rw [dagMult]
  by_cases hc : add32 ((σ u).current_length) 1 = (σ v).current_length
  · rw [if_pos hc]
    exact List.count_filter (by simp [hc])
  · rw [if_neg hc]
    apply List.count_eq_zero.mpr
    intro hmem
    rw [List.mem_filter] at hmem
    have h2 := hmem.2
    simp at h2
    exact hc h2

theorem mem_depFlagSet (g : Graph) (σ : St) (v : Nat) :
    v ∈ depFlagSet g σ ↔ v < g.n ∧ (σ v).propogation_flag = true := by
  rw [depFlagSet, Finset.mem_filter, Finset.mem_range]

theorem depScanCount_eq_dagToSet (g : Graph) (σ : St) (u : Nat)
    (hadj : ∀ v ∈ g.adj u, v < g.n) :
    depScanCount g σ u = dagToSet g σ (depFlagSet g σ) u := by
  rw [depScanCount, dagToSet,
    list_length_eq_sum_count ((g.adj u).filter _) g.n
      (fun v hv => hadj v (List.mem_of_mem_filter hv)),
    depFlagSet, Finset.sum_filter]
  apply Finset.sum_congr rfl
  intro v _
  rw [dagMult]
  by_cases h1 : (σ v).propogation_flag = true
  · by_cases h2 : add32 ((σ u).current_length) 1 = (σ v).current_length
    · rw [if_pos h1, if_pos h2]
      exact List.count_filter (by simp [h1, h2])
    · rw [if_pos h1, if_neg h2]
      apply List.count_eq_zero.mpr
      intro hmem
      rw [List.mem_filter] at hmem
      have h3 := hmem.2
      simp at h3
      exact h2 h3.2
  · rw [if_neg h1]
    apply List.count_eq_zero.mpr
    intro hmem
    rw [List.mem_filter] at hmem
    have h3 := hmem.2
    simp at h3
    exact h1 h3.1

theorem dagToSet_union (g : Graph) (σ : St) (S T : Finset Nat)
    (h : Disjoint S T) (u : Nat) :
    dagToSet g σ (S ∪ T) u = dagToSet g σ S u + dagToSet g σ T u :=
  Finset.sum_union h

theorem dagToSet_le_dagOutDeg (g : Graph) (σ : St) (S : Finset Nat)
    (hS : S ⊆ Finset.range g.n) (u : Nat)
    (hadj : ∀ v ∈ g.adj u, v < g.n) :
    dagToSet g σ S u ≤ dagOutDeg g σ u := by
  rw [dagOutDeg_eq_sum g σ u hadj]
  exact Finset.sum_le_sum_of_subset hS

theorem dagMult_inf (g : Graph) (σ : St) (u v : Nat)
    (hv : v < g.n) (hLv : (σ v).current_length ≤ infinity)
    (hu : (σ u).current_length = infinity) : dagMult g σ u v = 0 := by
  rw [dagMult, hu]
  have h1 : add32 infinity 1 = infinity + 1 :=
    add32_small (by rw [infinity]; omega)
  rw [if_neg (by rw [h1]; omega)]

theorem dagOutDeg_inf (g : Graph) (σ : St) (u : Nat)
    (hadj : ∀ v ∈ g.adj u, v < g.n)
    (hL : ∀ v, v < g.n → (σ v).current_length ≤ infinity)
    (hu : (σ u).current_length = infinity) : dagOutDeg g σ u = 0 := by
  rw [dagOutDeg_eq_sum g σ u hadj]
  exact Finset.sum_eq_zero fun v hv =>
    dagMult_inf g σ u v (Finset.mem_range.mp hv)
      (hL v (Finset.mem_range.mp hv)) hu

theorem dagToSet_inf (g : Graph) (σ : St) (S : Finset Nat) (u : Nat)
    (hS : S ⊆ Finset.range g.n)
    (hL : ∀ v, v < g.n → (σ v).current_length ≤ infinity)
    (hu : (σ u).current_length = infinity) : dagToSet g σ S u = 0 := by
  rw [dagToSet]
  exact Finset.sum_eq_zero fun v hv =>
    dagMult_inf g σ u v (Finset.mem_range.mp (hS hv))
      (hL v (Finset.mem_range.mp (hS hv))) hu

theorem depRound_step (g : Graph) (s : Nat) (σ : St) (S : Finset Nat)
    (hL : LenOK g σ) (hI : DepInv g s σ S) :
    ∃ ρ acc, dependencyPropogationRound g s σ = some (ρ, acc) ∧
      (∀ v, (ρ v).current_length = (σ v).current_length) ∧
      DepInv g s ρ (S ∪ depFlagSet g σ) ∧ LenOK g ρ := by
  obtain ⟨hI1, hI2, hI3, hI4, hI5⟩ := hI
  obtain ⟨hL1, hL2, hL3, hL4⟩ := id hL
  set π := (List.range g.n).foldl (dependencyPropogationNode g s)
    ((σ : St), 0) with hπ
  obtain ⟨P1, P2, P3, P4⟩ :=
    depScanNodes_fold g s (List.range g.n) (σ, 0) (List.nodup_range g.n)
  rw [← hπ] at P1 P2 P3 P4
  dsimp only at P1 P2 P3 P4
  have hclπ : ∀ w, (π.1 w).current_length = (σ w).current_length :=
    fun w => (P4 w).1
  have hflπ : ∀ w, (π.1 w).propogation_flag = (σ w).propogation_flag :=
    fun w => (P4 w).2.2.2.2.2
  have hFsub : depFlagSet g σ ⊆ Finset.range g.n := Finset.filter_subset _ _
  have hSsub : S ⊆ Finset.range g.n :=
    fun v hv => Finset.mem_range.mpr (hI4 v hv).1
  have hdisj : Disjoint S (depFlagSet g σ) := by
    rw [Finset.disjoint_left]
    intro v hvS hvF
    have h1 := (hI4 v hvS).2.1
    have h2 := ((mem_depFlagSet g σ v).mp hvF).2
    rw [h1] at h2
    exact Bool.false_ne_true h2
  have hUsub := Finset.union_subset hSsub hFsub
  have hcnt : ∀ w, w < g.n →
      depScanCount g σ w = dagToSet g σ (depFlagSet g σ) w :=
    fun w hw => depScanCount_eq_dagToSet g σ w (hL2 w hw)
  have hsum : ∀ w, w < g.n →
      dagToSet g σ (S ∪ depFlagSet g σ) w ≤ dagOutDeg g σ w :=
    fun w hw => dagToSet_le_dagOutDeg g σ _ hUsub w (hL2 w hw)
  have hsplit : ∀ w, dagToSet g σ (S ∪ depFlagSet g σ) w =
      dagToSet g σ S w + dagToSet g σ (depFlagSet g σ) w :=
    fun w => dagToSet_union g σ _ _ hdisj w
  have hWm : ∀ w, w < g.n → w ∈ List.range g.n :=
    fun w hw => List.mem_range.mpr hw
  have htrimπ : ∀ w, w < g.n → (π.1 w).trim =
      if depGate s σ w then dagToSet g σ (depFlagSet g σ) w else 0 := by
    intro w hw
    rw [P1 w]
    by_cases hg : depGate s σ w
    · have hc2 : w ∈ List.range g.n ∧ depGate s σ w := ⟨hWm w hw, hg⟩
      rw [if_pos hc2, if_pos hg, hI1 w hw, hcnt w hw]
      by_cases h0 : dagToSet g σ (depFlagSet g σ) w = 0
      · rw [if_pos h0, h0]
      · rw [if_neg h0]
        have hlt : dagToSet g σ (depFlagSet g σ) w < 4294967296 := by
          have h1 := hsum w hw
          have h2 := hsplit w
          have h3 := hL4 w hw
          omega
        exact (add32_small (by omega)).trans (Nat.zero_add _)
    · have hc2 : ¬ (w ∈ List.range g.n ∧ depGate s σ w) := fun h => hg h.2
      rw [if_neg hc2, if_neg hg]
      exact hI1 w hw
  have hsuccπ : ∀ w, w < g.n → (π.1 w).num_successors =
      if depSrcGate s σ w then 0 else (σ w).num_successors := by
    intro w hw
    rw [P3 w]
    by_cases hs' : depSrcGate s σ w
    · have hc2 : w ∈ List.range g.n ∧ depSrcGate s σ w := ⟨hWm w hw, hs'⟩
      rw [if_pos hc2, if_pos hs']
    · have hc2 : ¬ (w ∈ List.range g.n ∧ depSrcGate s σ w) :=
        fun h => hs' h.2
      rw [if_neg hc2, if_neg hs']
  have htrim0 : ∀ w, w < g.n → ¬ depGate s σ w → (π.1 w).trim = 0 := by
    intro w hw hg
    rw [htrimπ w hw, if_neg hg]
  have hsuccid : ∀ w, w < g.n → ¬ depSrcGate s σ w →
      (π.1 w).num_successors = (σ w).num_successors := by
    intro w hw hs'
    rw [hsuccπ w hw, if_neg hs']
  have hg_of_s0 : ∀ w, (σ w).num_successors = 0 → ¬ depGate s σ w :=
    fun w h0 hg => absurd hg.2.1 (by omega)
  have hsrc_of_s0 : ∀ w, (σ w).num_successors = 0 → ¬ depSrcGate s σ w :=
    fun w h0 hs' => absurd hs'.2.1 (by omega)
  have hFle : ∀ w, w < g.n → w ≠ s →
      dagToSet g σ (depFlagSet g σ) w ≤ (σ w).num_successors := by
    intro w hw hws
    have h1 := hI2 w hw hws
    have h2 := hsum w hw
    have h3 := hsplit w
    omega
  have hok : ∀ w, w < g.n → depChangesOk (π.1 w) := by
    intro w hw hclw
    have hcl' : (σ w).current_length ≠ infinity := by
      rw [← hclπ w]
      exact hclw
    constructor
    · rintro ⟨hs0, hfl⟩
      have hflσ : (σ w).propogation_flag = true := by
        rw [← hflπ w]
        exact hfl
      have hsuccσ := (hI5 w hw hflσ).1
      exact htrim0 w hw (hg_of_s0 w hsuccσ)
    · intro hsf ht
      rw [htrimπ w hw] at ht
      by_cases hg : depGate s σ w
      · rw [if_pos hg] at ht
        have hws : w ≠ s := hg.2.2
        have hnsrc : ¬ depSrcGate s σ w := fun h => hws h.2.2
        have hsucc' := hsuccid w hw hnsrc
        constructor
        · rw [htrimπ w hw, if_pos hg, hsucc']
          exact hFle w hw hws
        · intro hz
          rw [hflπ w]
          by_contra hflc
          rw [Bool.not_eq_false] at hflc
          have h1 := (hI5 w hw hflc).1
          have h2 := hg.2.1
          omega
      · rw [if_neg hg] at ht
        omega
  have hchg := depChanges_spec g π.1 hok
  have hclρ : ∀ v,
      (if v ∈ List.range g.n then depChangesVal (π.1 v)
        else π.1 v).current_length = (σ v).current_length := by
    intro v
    by_cases hv : v ∈ List.range g.n
    · rw [if_pos hv, depChangesVal_cl]
      exact hclπ v
    · rw [if_neg hv]
      exact hclπ v
  have hRtrim : ∀ w, w < g.n →
      (if w ∈ List.range g.n then depChangesVal (π.1 w)
        else π.1 w).trim = 0 := by
    intro w hw
    rw [if_pos (hWm w hw)]
    by_cases hclσ : (σ w).current_length = infinity
    · have hclP : (π.1 w).current_length = infinity := by
        rw [hclπ w]
        exact hclσ
      rw [depChangesVal_inf _ hclP]
      exact htrim0 w hw (fun hg => hg.1 hclσ)
    · have hclP : (π.1 w).current_length ≠ infinity := by
        rw [hclπ w]
        exact hclσ
      by_cases hcons : (π.1 w).num_successors = 0 ∧
          (π.1 w).propogation_flag = true
      · obtain ⟨hc1, hc2, hc3⟩ :=
          depChangesVal_consumed _ hclP hcons.1 hcons.2
        rw [hc3]
        have hflσ : (σ w).propogation_flag = true := by
          rw [← hflπ w]
          exact hcons.2
        exact htrim0 w hw (hg_of_s0 w (hI5 w hw hflσ).1)
      · by_cases ht : (π.1 w).trim > 0
        · exact (depChangesVal_apply _ hclP hcons ht).2.1
        · have ht0 : (π.1 w).trim = 0 := by omega
          exact (depChangesVal_idle _ hclP hcons ht0).2.1
  have hRsucc2 : ∀ w, w < g.n → w ≠ s →
      (if w ∈ List.range g.n then depChangesVal (π.1 w)
        else π.1 w).num_successors + dagToSet g σ (S ∪ depFlagSet g σ) w =
      dagOutDeg g σ w := by
    intro w hw hws
    rw [if_pos (hWm w hw)]
    have hnsrc : ¬ depSrcGate s σ w := fun h => hws h.2.2
    have hIw := hI2 w hw hws
    have hsp := hsplit w
    by_cases hclσ : (σ w).current_length = infinity
    · have hclP : (π.1 w).current_length = infinity := by
        rw [hclπ w]
        exact hclσ
      rw [depChangesVal_inf _ hclP, hsuccid w hw hnsrc]
      have hout0 : dagOutDeg g σ w = 0 :=
        dagOutDeg_inf g σ w (hL2 w hw) (fun v hv => (hL1 v hv).1) hclσ
      have hts0 : dagToSet g σ (S ∪ depFlagSet g σ) w = 0 :=
        dagToSet_inf g σ _ w hUsub (fun v hv => (hL1 v hv).1) hclσ
      omega
    · have hclP : (π.1 w).current_length ≠ infinity := by
        rw [hclπ w]
        exact hclσ
      by_cases hflσ : (σ w).propogation_flag = true
      · have hs0 := (hI5 w hw hflσ).1
        have hsP : (π.1 w).num_successors = 0 := by
          rw [hsuccid w hw (hsrc_of_s0 w hs0)]
          exact hs0
        have hflP : (π.1 w).propogation_flag = true := by
          rw [hflπ w]
          exact hflσ
        obtain ⟨hc1, hc2, hc3⟩ := depChangesVal_consumed _ hclP hsP hflP
        rw [hc2]
        have hF0 : dagToSet g σ (depFlagSet g σ) w = 0 := by
          have h1 := hsum w hw
          omega
        omega
      · have hflP : (π.1 w).propogation_flag = false := by
          rw [hflπ w]
          exact Bool.not_eq_true _ |>.mp hflσ
        by_cases hsgt : (σ w).num_successors > 0
        · have hg : depGate s σ w := ⟨hclσ, hsgt, hws⟩
          have hsP : (π.1 w).num_successors = (σ w).num_successors :=
            hsuccid w hw hnsrc
          have hcons : ¬ ((π.1 w).num_successors = 0 ∧
              (π.1 w).propogation_flag = true) := by
            intro h
            rw [hsP] at h
            omega
          have htP : (π.1 w).trim = dagToSet g σ (depFlagSet g σ) w := by
            rw [htrimπ w hw, if_pos hg]
          by_cases ht : dagToSet g σ (depFlagSet g σ) w > 0
          · have htpos : (π.1 w).trim > 0 := by
              rw [htP]
              exact ht
            obtain ⟨ha1, ha2, ha3⟩ := depChangesVal_apply _ hclP hcons htpos
            rw [ha1, hsP, htP]
            have hle := hFle w hw hws
            omega
          · have ht0 : (π.1 w).trim = 0 := by
              rw [htP]
              omega
            obtain ⟨ha1, ha2, ha3⟩ := depChangesVal_idle _ hclP hcons ht0
            rw [ha1, hsP]
            omega
        · have hs0 : (σ w).num_successors = 0 := by omega
          have hsP : (π.1 w).num_successors = 0 := by
            rw [hsuccid w hw (hsrc_of_s0 w hs0)]
            exact hs0
          have hcons : ¬ ((π.1 w).num_successors = 0 ∧
              (π.1 w).propogation_flag = true) := by
            intro h
            rw [hflP] at h
            exact Bool.false_ne_true h.2
          have ht0 : (π.1 w).trim = 0 := htrim0 w hw (hg_of_s0 w hs0)
          obtain ⟨ha1, ha2, ha3⟩ := depChangesVal_idle _ hclP hcons ht0
          rw [ha1, hsP]
          have hF0 : dagToSet g σ (depFlagSet g σ) w = 0 := by
            have h1 := hsum w hw
            omega
          omega
  have hRsrc : s < g.n →
      (if s ∈ List.range g.n then depChangesVal (π.1 s)
        else π.1 s).num_successors = dagOutDeg g σ s ∨
      (if s ∈ List.range g.n then depChangesVal (π.1 s)
        else π.1 s).num_successors = 0 := by
    intro hsn
    rw [if_pos (hWm s hsn)]
    have hgns : ¬ depGate s σ s := fun hg => hg.2.2 rfl
    by_cases hclσ : (σ s).current_length = infinity
    · have hclP : (π.1 s).current_length = infinity := by
        rw [hclπ s]
        exact hclσ
      have hnsrc : ¬ depSrcGate s σ s := fun h => absurd hclσ h.1
      rw [depChangesVal_inf _ hclP, hsuccid s hsn hnsrc]
      exact hI3 hsn
    · have hclP : (π.1 s).current_length ≠ infinity := by
        rw [hclπ s]
        exact hclσ
      by_cases hsgt : (σ s).num_successors > 0
      · have hsrc : depSrcGate s σ s := ⟨hclσ, hsgt, rfl⟩
        have hsP : (π.1 s).num_successors = 0 := by
          rw [hsuccπ s hsn, if_pos hsrc]
        have hflσ : (σ s).propogation_flag = false := by
          by_contra hflc
          rw [Bool.not_eq_false] at hflc
          have := (hI5 s hsn hflc).1
          omega
        have hflP : (π.1 s).propogation_flag = false := by
          rw [hflπ s]
          exact hflσ
        have hcons : ¬ ((π.1 s).num_successors = 0 ∧
            (π.1 s).propogation_flag = true) := by
          intro h
          rw [hflP] at h
          exact Bool.false_ne_true h.2
        have ht0 : (π.1 s).trim = 0 := htrim0 s hsn hgns
        obtain ⟨ha1, ha2, ha3⟩ := depChangesVal_idle _ hclP hcons ht0
        rw [ha1, hsP]
        exact Or.inr rfl
      · have hs0 : (σ s).num_successors = 0 := by omega
        have hsP : (π.1 s).num_successors = 0 := by
          rw [hsuccid s hsn (hsrc_of_s0 s hs0)]
          exact hs0
        by_cases hflσ : (σ s).propogation_flag = true
        · have hflP : (π.1 s).propogation_flag = true := by
            rw [hflπ s]
            exact hflσ
          obtain ⟨hc1, hc2, hc3⟩ := depChangesVal_consumed _ hclP hsP hflP
          rw [hc2]
          exact Or.inr rfl
        · have hflP : (π.1 s).propogation_flag = false := by
            rw [hflπ s]
            exact Bool.not_eq_true _ |>.mp hflσ
          have hcons : ¬ ((π.1 s).num_successors = 0 ∧
              (π.1 s).propogation_flag = true) := by
            intro h
            rw [hflP] at h
            exact Bool.false_ne_true h.2
          have ht0 : (π.1 s).trim = 0 := htrim0 s hsn hgns
          obtain ⟨ha1, ha2, ha3⟩ := depChangesVal_idle _ hclP hcons ht0
          rw [ha1, hsP]
          exact Or.inr rfl
  have hRmem : ∀ v ∈ S ∪ depFlagSet g σ, v < g.n ∧
      (if v ∈ List.range g.n then depChangesVal (π.1 v)
        else π.1 v).propogation_flag = false ∧
      (if v ∈ List.range g.n then depChangesVal (π.1 v)
        else π.1 v).num_successors = 0 ∧
      (if v ∈ List.range g.n then depChangesVal (π.1 v)
        else π.1 v).current_length ≠ infinity := by
    intro v hv
    have hlen2 : ∀ hvn : v < g.n, (σ v).current_length ≠ infinity →
        (if v ∈ List.range g.n then depChangesVal (π.1 v)
          else π.1 v).current_length ≠ infinity := by
      intro hvn hlen
      rw [hclρ v]
      exact hlen
    rcases Finset.mem_union.mp hv with hv' | hv'
    · obtain ⟨hvn, hflf, hs0, hlen⟩ := hI4 v hv'
      have hclP : (π.1 v).current_length ≠ infinity := by
        rw [hclπ v]
        exact hlen
      have hsP : (π.1 v).num_successors = 0 := by
        rw [hsuccid v hvn (hsrc_of_s0 v hs0)]
        exact hs0
      have hflP : (π.1 v).propogation_flag = false := by
        rw [hflπ v]
        exact hflf
      have hcons : ¬ ((π.1 v).num_successors = 0 ∧
          (π.1 v).propogation_flag = true) := by
        intro h
        rw [hflP] at h
        exact Bool.false_ne_true h.2
      have ht0 : (π.1 v).trim = 0 := htrim0 v hvn (hg_of_s0 v hs0)
      obtain ⟨ha1, ha2, ha3⟩ := depChangesVal_idle _ hclP hcons ht0
      refine ⟨hvn, ?_, ?_, hlen2 hvn hlen⟩
      · rw [if_pos (hWm v hvn), ha3]
        exact hflP
      · rw [if_pos (hWm v hvn), ha1]
        exact hsP
    · obtain ⟨hvn, hflt⟩ := (mem_depFlagSet g σ v).mp hv'
      obtain ⟨hs0, hlen⟩ := hI5 v hvn hflt
      have hclP : (π.1 v).current_length ≠ infinity := by
        rw [hclπ v]
        exact hlen
      have hsP : (π.1 v).num_successors = 0 := by
        rw [hsuccid v hvn (hsrc_of_s0 v hs0)]
        exact hs0
      have hflP : (π.1 v).propogation_flag = true := by
        rw [hflπ v]
        exact hflt
      obtain ⟨hc1, hc2, hc3⟩ := depChangesVal_consumed _ hclP hsP hflP
      refine ⟨hvn, ?_, ?_, hlen2 hvn hlen⟩
      · rw [if_pos (hWm v hvn)]
        exact hc1
      · rw [if_pos (hWm v hvn)]
        exact hc2
  have hRflag : ∀ v, v < g.n →
      (if v ∈ List.range g.n then depChangesVal (π.1 v)
        else π.1 v).propogation_flag = true →
      (if v ∈ List.range g.n then depChangesVal (π.1 v)
        else π.1 v).num_successors = 0 ∧
      (if v ∈ List.range g.n then depChangesVal (π.1 v)
        else π.1 v).current_length ≠ infinity := by
    intro v hv hfl
    rw [if_pos (hWm v hv)] at hfl ⊢
    by_cases hclσ : (σ v).current_length = infinity
    · have hclP : (π.1 v).current_length = infinity := by
        rw [hclπ v]
        exact hclσ
      rw [depChangesVal_inf _ hclP] at hfl
      have hflσ : (σ v).propogation_flag = true := by
        rw [← hflπ v]
        exact hfl
      exact absurd hclσ (hI5 v hv hflσ).2
    · have hclP : (π.1 v).current_length ≠ infinity := by
        rw [hclπ v]
        exact hclσ
      have hclgoal :
          (depChangesVal (π.1 v)).current_length ≠ infinity := by
        rw [depChangesVal_cl, hclπ v]
        exact hclσ
      by_cases hcons : (π.1 v).num_successors = 0 ∧
          (π.1 v).propogation_flag = true
      · obtain ⟨hc1, hc2, hc3⟩ :=
          depChangesVal_consumed _ hclP hcons.1 hcons.2
        rw [hc1] at hfl
        exact absurd hfl Bool.false_ne_true
      · by_cases ht : (π.1 v).trim > 0
        · obtain ⟨ha1, ha2, ha3⟩ := depChangesVal_apply _ hclP hcons ht
          rw [ha3] at hfl
          by_cases hz : (π.1 v).num_successors - (π.1 v).trim = 0
          · refine ⟨?_, hclgoal⟩
            rw [ha1]
            exact hz
          · rw [if_neg hz] at hfl
            have hflσ : (σ v).propogation_flag = true := by
              rw [← hflπ v]
              exact hfl
            have hs0 := (hI5 v hv hflσ).1
            have ht0 : (π.1 v).trim = 0 := htrim0 v hv (hg_of_s0 v hs0)
            omega
        · have ht0 : (π.1 v).trim = 0 := by omega
          obtain ⟨ha1, ha2, ha3⟩ := depChangesVal_idle _ hclP hcons ht0
          rw [ha3] at hfl
          have hflσ : (σ v).propogation_flag = true := by
            rw [← hflπ v]
            exact hfl
          have hs0 := (hI5 v hv hflσ).1
          have hsP : (π.1 v).num_successors = 0 := by
            rw [hsuccid v hv (hsrc_of_s0 v hs0)]
            exact hs0
          exact absurd ⟨hsP, hfl⟩ hcons
  refine ⟨(fun v => if v ∈ List.range g.n then depChangesVal (π.1 v)
      else π.1 v), π.2, ?_, hclρ, ?_, LenOK_congr g σ _ hclρ hL⟩
  · show (dependencyPropChanges g π.1).map (fun τ => (τ, π.2)) = _
    rw [hchg]
    rfl
  · refine ⟨hRtrim, fun w hw hws => ?_, ?_, hRmem, hRflag⟩
    · rw [dagToSet_congr g σ _ hclρ, dagOutDeg_congr g σ _ hclρ]
      exact hRsucc2 w hw hws
    · intro hsn
      rw [dagOutDeg_congr g σ _ hclρ]
      exact hRsrc hsn

theorem depEntry_inv (g : Graph) (s : Nat) (σ : St) (h : DepEntry g s σ) :
    DepInv g s σ ∅ := by
  obtain ⟨hLen, h1, h2, h3, h4⟩ := h
  refine ⟨h1, fun v hv hvs => ?_, h3,
    fun v hv => absurd hv (Finset.not_mem_empty v), h4⟩
  rw [dagToSet]
  simp [h2 v hv hvs]

theorem depLoop_safe (g : Graph) (s : Nat) :
    ∀ fuel (σ : St) (S : Finset Nat), LenOK g σ → DepInv g s σ S →
    dependencyPropogationLoop g s fuel σ ≠ RunRes.assertFail := by
  intro fuel
  induction fuel with
  | zero =>
    intro σ S hL hI
    obtain ⟨ρ, acc, hrnd, _, _, _⟩ := depRound_step g s σ S hL hI
    simp only [dependencyPropogationLoop]
    rw [hrnd]
    dsimp only
    split
    · exact fun h => RunRes.noConfusion h
    · exact fun h => RunRes.noConfusion h
  | succ fuel ih =>
    intro σ S hL hI
    obtain ⟨ρ, acc, hrnd, hclρ, hinv, hlen⟩ := depRound_step g s σ S hL hI
    simp only [dependencyPropogationLoop]
    rw [hrnd]
    dsimp only
    split
    · exact fun h => RunRes.noConfusion h
    · exact ih ρ (S ∪ depFlagSet g σ) hlen hinv

theorem nspPass_trim_le (g : Graph) (σ : St) (S : Finset Nat)
    (hL : LenOK g σ) (hI : NspInv g σ S) :
    ∀ v, v < g.n → ((numShortestPathsPushPass g σ).1 v).trim ≤
      ((numShortestPathsPushPass g σ).1 v).num_predecessors := by
  obtain ⟨hI1, hI2, hI3, hI4⟩ := hI
  obtain ⟨hL1, hL2, hL3, hL4⟩ := hL
  obtain ⟨P1, P2, P3, P4, P5⟩ := nspPushPass_spec g σ
  have hSrange : S ⊆ Finset.range g.n :=
    fun u hu => Finset.mem_range.mpr (hI3 u hu).1
  have hPSrange : nspPushSet g σ ⊆ Finset.range g.n :=
    Finset.filter_subset _ _
  have hdisj : Disjoint S (nspPushSet g σ) := by
    rw [Finset.disjoint_left]
    intro u hu hupp
    have h1 := (hI3 u hu).2.1
    have h2 := ((mem_nspPushSet g σ u).mp hupp).2.2.1
    rw [h1] at h2
    exact Bool.false_ne_true h2
  intro v hv
  rw [P1 v, (P4 v).2.2.2.2, (hI1 v hv).1]
  have hfs : dagFromSet g σ (nspPushSet g σ) v ≤
      (σ v).num_predecessors := by
    have h1 := hI2 v hv
    have h2 := dagFromSet_le_dagInDeg g σ _
      (Finset.union_subset hSrange hPSrange) v
    have h3 := dagFromSet_union g σ S (nspPushSet g σ) hdisj v
    omega
  by_cases h0 : dagFromSet g σ (nspPushSet g σ) v = 0
  · rw [if_pos h0]
    omega
  · rw [if_neg h0]
    have hlt : dagFromSet g σ (nspPushSet g σ) v < 4294967296 :=
      lt_of_le_of_lt (dagFromSet_le_dagInDeg g σ _ hPSrange v) (hL3 v hv)
    rw [add32_small (by omega), Nat.zero_add]
    exact hfs

theorem depPass_trim_le (g : Graph) (s : Nat) (σ : St) (S : Finset Nat)
    (hL : LenOK g σ) (hI : DepInv g s σ S) :
    ∀ w, w < g.n → ((dependencyPropogationScanPass g s σ).1 w).trim ≤
      ((dependencyPropogationScanPass g s σ).1 w).num_successors := by
  obtain ⟨hI1, hI2, hI3, hI4, hI5⟩ := hI
  obtain ⟨hL1, hL2, hL3, hL4⟩ := hL
  obtain ⟨P1, P2, P3, P4⟩ :=
    depScanNodes_fold g s (List.range g.n) (σ, 0) (List.nodup_range g.n)
  dsimp only at P1 P2 P3 P4
  have hFsub : depFlagSet g σ ⊆ Finset.range g.n := Finset.filter_subset _ _
  have hSsub : S ⊆ Finset.range g.n :=
    fun v hv => Finset.mem_range.mpr (hI4 v hv).1
  have hdisj : Disjoint S (depFlagSet g σ) := by
    rw [Finset.disjoint_left]
    intro v hvS hvF
    have h1 := (hI4 v hvS).2.1
    have h2 := ((mem_depFlagSet g σ v).mp hvF).2
    rw [h1] at h2
    exact Bool.false_ne_true h2
  intro w hw
  show (((List.range g.n).foldl (dependencyPropogationNode g s)
      (σ, 0)).1 w).trim ≤
    (((List.range g.n).foldl (dependencyPropogationNode g s)
      (σ, 0)).1 w).num_successors
  rw [P1 w, P3 w]
  by_cases hg : depGate s σ w
  · have hws : w ≠ s := hg.2.2
    have hc1 : w ∈ List.range g.n ∧ depGate s σ w :=
      ⟨List.mem_range.mpr hw, hg⟩
    have hc2 : ¬ (w ∈ List.range g.n ∧ depSrcGate s σ w) :=
      fun h => hws h.2.2.2
    rw [if_pos hc1, if_neg hc2, hI1 w hw,
      depScanCount_eq_dagToSet g σ w (hL2 w hw)]
    have hFle : dagToSet g σ (depFlagSet g σ) w ≤
        (σ w).num_successors := by
      have h1 := hI2 w hw hws
      have h2 := dagToSet_le_dagOutDeg g σ _
        (Finset.union_subset hSsub hFsub) w (hL2 w hw)
      have h3 := dagToSet_union g σ S (depFlagSet g σ) hdisj w
      omega
    by_cases h0 : dagToSet g σ (depFlagSet g σ) w = 0
    · rw [if_pos h0]
      omega
    · rw [if_neg h0]
      have hlt : dagToSet g σ (depFlagSet g σ) w < 4294967296 := by
        have h2 := dagToSet_le_dagOutDeg g σ _
          (Finset.union_subset hSsub hFsub) w (hL2 w hw)
        have h3 := dagToSet_union g σ S (depFlagSet g σ) hdisj w
        have h4 := hL4 w hw
        omega
      rw [add32_small (by omega), Nat.zero_add]
      exact hFle
  · have hc1 : ¬ (w ∈ List.range g.n ∧ depGate s σ w) := fun h => hg h.2
    rw [if_neg hc1, hI1 w hw]
    omega

/-- C8: in both round loops the Changes-pass asserts hold: along the
phase-4.4 trace every applied trim is at most the predecessor count, and
from any phase-4.5 entry state the scanned trim is at most the successor
count; consequently neither loop ever returns the embedded assert-failure
value (which is how the embedding renders the fatal, unrecoverable abort
of a violated invariant). -/
theorem c8_changes_asserts :
    (∀ g σ0, NspEntry g σ0 →
      (∀ k σ, nspStateAt g σ0 k = some σ → ∀ v, v < g.n →
        ((numShortestPathsPushPass g σ).1 v).trim ≤
        ((numShortestPathsPushPass g σ).1 v).num_predecessors) ∧
      (∀ fuel, numShortestPathsLoop g fuel σ0 ≠ RunRes.assertFail)) ∧
    (∀ g s σ0, DepEntry g s σ0 →
      (∀ w, w < g.n →
        ((dependencyPropogationScanPass g s σ0).1 w).trim ≤
        ((dependencyPropogationScanPass g s σ0).1 w).num_successors) ∧
      (∀ fuel, dependencyPropogationLoop g s fuel σ0 ≠
        RunRes.assertFail)) := by
  constructor
  · intro g σ0 h0
    constructor
    · intro k σ hst v hv
      obtain ⟨σk, hst', hinv, hlen⟩ := nspTrace_inv g σ0 h0 k
      rw [hst] at hst'
      have heq : σ = σk := Option.some.inj hst'
      subst heq
      exact nspPass_trim_le g σ _ hlen hinv v hv
    · intro fuel
      exact nspLoop_safe g fuel σ0 ∅ h0.1 (nspEntry_inv g σ0 h0)
  · intro g s σ0 h0
    constructor
    · exact depPass_trim_le g s σ0 ∅ h0.1 (depEntry_inv g s σ0 h0)
    · intro fuel
      exact depLoop_safe g s fuel σ0 ∅ h0.1 (depEntry_inv g s σ0 h0)

/-- Concrete instance of C8: both loop entries of the path-graph demo
satisfy the entry conditions, and neither loop aborts. -/
theorem c8_changes_asserts_witness :
    NspEntry pathGraph4 nspEntryDemo ∧
    DepEntry pathGraph4 0 depEntryDemo ∧
    numShortestPathsLoop pathGraph4 6 nspEntryDemo ≠ RunRes.assertFail ∧
    dependencyPropogationLoop pathGraph4 0 6 depEntryDemo ≠
      RunRes.assertFail :=
  ⟨by decide, by decide,
    (c8_changes_asserts.1 pathGraph4 nspEntryDemo (by decide)).2 6,
    (c8_changes_asserts.2 pathGraph4 0 depEntryDemo (by decide)).2 6⟩
